import Mathlib

/-!
Verification of the response-formatting and dispatch layer of the
firewalla-msp-mcp-server repository (src/src/index.ts, versions 1.0.0 and
1.2.0 of the entry point).

The development shallowly embeds the pure formatting core of the server:

* the XML escaper `escapeXML` and the recursive JSON-to-XML serializer
  `jsonToXML`;
* the byte-count formatters `formatBytes` (plain, `"0B"`) and
  `FirewallaResponseFormatter.formatBytes` (rich, `"0 B"`);
* the Markdown renderers `formatListDevices` and `formatListAlarms` and the
  envelope builders `formatAsXML` / `formatEnhancedResponse`;
* the `list_rules` name synthesis, the `search_global` fan-out loops of both
  versions, the axios error mapping of the shared catch block, and the
  unknown-tool default case of the tool dispatcher.

JavaScript values are modelled by the inductive type `JSVal` (with `undef`
for `undefined`); numbers are modelled as integers, which covers every value
the analysed claims exercise.  Impure inputs of the source (the wall clock
feeding `new Date()`, the locale-dependent `formatDate`) are passed as
explicit parameters.  Strings are handled through their character lists.
-/

set_option maxRecDepth 8000

/-! ## Decimal numerals

The source interpolates JavaScript numbers into strings (`${n}`); for
integers this prints the usual decimal form.  `natToStr` / `intToStr` model
that conversion, and `strToInt?` is the exact inverse used by the structural
XML parser: it accepts precisely the canonical decimal forms the printer
emits. -/

def digitChar (n : Nat) : Char := Char.ofNat (48 + n)

/-- Fuel-based most-significant-first decimal digits of `n`; fuel `f ≥ n`
suffices. -/
def natDigitsAux : Nat → Nat → List Char
  | 0, _ => []
  | fuel + 1, n => if n = 0 then [] else natDigitsAux fuel (n / 10) ++ [digitChar (n % 10)]

def natDigits (n : Nat) : List Char := natDigitsAux n n

def natToStr (n : Nat) : String := if n = 0 then "0" else String.mk (natDigits n)

def intToStr (i : Int) : String :=
  if i < 0 then "-" ++ natToStr i.natAbs else natToStr i.natAbs

def digitVal (c : Char) : Nat := c.toNat - 48

def isDigitCh (c : Char) : Bool := decide (48 ≤ c.toNat) && decide (c.toNat ≤ 57)

def digitsValue (l : List Char) : Nat := l.foldl (fun a c => 10 * a + digitVal c) 0

/-- Parser for the canonical decimal form of a natural number: nonempty, all
digits, no leading zero except for `"0"` itself. -/
def parseCanonNat? : List Char → Option Nat
  | [] => none
  | c :: cs =>
    if c = '0' then (if cs = [] then some 0 else none)
    else if (c :: cs).all isDigitCh then some (digitsValue (c :: cs)) else none

/-- Parser for the canonical decimal form of an integer, the exact inverse of
`intToStr`. -/
def strToIntL? : List Char → Option Int
  | [] => none
  | c :: cs =>
    if c = '-' then
      match parseCanonNat? cs with
      | some n => if n = 0 then none else some (-(n : Int))
      | none => none
    else (parseCanonNat? (c :: cs)).map Int.ofNat

def strToInt? (s : String) : Option Int := strToIntL? s.data

theorem digitChar_toNat (n : Nat) (h : n < 10) : (digitChar n).toNat = 48 + n := by
  interval_cases n <;> decide

theorem isDigitCh_digitChar (n : Nat) (h : n < 10) : isDigitCh (digitChar n) = true := by
  interval_cases n <;> decide

theorem digitVal_digitChar (n : Nat) (h : n < 10) : digitVal (digitChar n) = n := by
  interval_cases n <;> decide

theorem digitChar_ne_zero (n : Nat) (h0 : n ≠ 0) (h : n < 10) : digitChar n ≠ '0' := by
  interval_cases n <;> simp_all <;> decide

theorem natDigitsAux_all_digits : ∀ f n, ∀ c ∈ natDigitsAux f n, isDigitCh c = true := by
  intro f
  induction f with
  | zero => intro n c hc; simp [natDigitsAux] at hc
  | succ f ih =>
    intro n c hc
    by_cases hn : n = 0
    · simp [natDigitsAux, hn] at hc
    · simp only [natDigitsAux, if_neg hn, List.mem_append, List.mem_singleton] at hc
      rcases hc with hc | hc
      · exact ih _ c hc
      · subst hc; exact isDigitCh_digitChar _ (Nat.mod_lt _ (by omega))

theorem natDigitsAux_ne_nil (f n : Nat) (hf : 1 ≤ f) (hn : n ≠ 0) :
    natDigitsAux f n ≠ [] := by
  cases f with
  | zero => omega
  | succ f =>
    simp only [natDigitsAux, if_neg hn]
    intro h
    exact absurd (List.append_eq_nil.mp h).2 (by simp)

theorem natDigitsAux_eq_nil (f n : Nat) (hn : n = 0) : natDigitsAux f n = [] := by
  cases f with
  | zero => rfl
  | succ f => simp [natDigitsAux, hn]

/-- Evaluating the digit fold from an arbitrary accumulator across an append. -/
theorem digitsValue_append_singleton (l : List Char) (c : Char) :
    digitsValue (l ++ [c]) = 10 * digitsValue l + digitVal c := by
  simp [digitsValue, List.foldl_append]

theorem digitsValue_natDigitsAux : ∀ f n, n ≤ f → digitsValue (natDigitsAux f n) = n := by
  intro f
  induction f with
  | zero => intro n h; interval_cases n; rfl
  | succ f ih =>
    intro n h
    by_cases hn : n = 0
    · simp [natDigitsAux, hn, digitsValue]
    · rw [natDigitsAux, if_neg hn, digitsValue_append_singleton,
        ih (n / 10) (by omega), digitVal_digitChar _ (Nat.mod_lt _ (by omega))]
      omega

theorem natDigitsAux_head_ne_zero :
    ∀ f n, n ≤ f → n ≠ 0 → ∀ c cs, natDigitsAux f n = c :: cs → c ≠ '0' := by
  intro f
  induction f with
  | zero => intro n h hn; omega
  | succ f ih =>
    intro n h hn c cs hd
    rw [natDigitsAux, if_neg hn] at hd
    by_cases h10 : n / 10 = 0
    · rw [natDigitsAux_eq_nil f _ h10, List.nil_append] at hd
      have hc : digitChar (n % 10) = c := by simpa using congrArg (List.headD · ' ') hd
      subst hc
      exact digitChar_ne_zero _ (by omega) (Nat.mod_lt _ (by omega))
    · have hne := natDigitsAux_ne_nil f (n / 10) (by omega) h10
      rcases hx : natDigitsAux f (n / 10) with _ | ⟨d, ds⟩
      · exact absurd hx hne
      · rw [hx] at hd
        have hc : d = c := by simpa using congrArg (List.headD · ' ') hd
        subst hc
        exact ih (n / 10) (by omega) h10 _ _ hx

theorem parseCanonNat?_natDigits (n : Nat) (hn : n ≠ 0) :
    parseCanonNat? (natDigits n) = some n := by
  rcases hx : natDigits n with _ | ⟨c, cs⟩
  · exact absurd hx (natDigitsAux_ne_nil n n (by omega) hn)
  · have hc0 : c ≠ '0' := natDigitsAux_head_ne_zero n n le_rfl hn c cs hx
    have hall : (c :: cs).all isDigitCh = true := by
      rw [← hx]
      exact List.all_eq_true.mpr (natDigitsAux_all_digits n n)
    have hval : digitsValue (c :: cs) = n := by
      rw [← hx]; exact digitsValue_natDigitsAux n n le_rfl
    simp [parseCanonNat?, hc0, hall, hval]

theorem natDigits_no_minus (n : Nat) : ∀ c ∈ natDigits n, c ≠ '-' := by
  intro c hc
  have h := natDigitsAux_all_digits n n c hc
  intro he; subst he; simp [isDigitCh] at h

theorem data_natToStr (n : Nat) :
    (natToStr n).data = if n = 0 then ['0'] else natDigits n := by
  by_cases hn : n = 0 <;> simp [natToStr, hn]

/-- Roundtrip: the canonical-integer parser inverts the JavaScript integer
printing modelled by `intToStr`. -/
theorem strToInt?_intToStr (i : Int) : strToInt? (intToStr i) = some i := by
  by_cases hi : i < 0
  · have hpos : i.natAbs ≠ 0 := by omega
    have hdata : (intToStr i).data = '-' :: natDigits i.natAbs := by
      simp only [intToStr, if_pos hi, String.data_append, data_natToStr, if_neg hpos]
      rfl
    rw [strToInt?, hdata, strToIntL?, if_pos rfl, parseCanonNat?_natDigits _ hpos]
    simp only [if_neg hpos]
    congr 1
    omega
  · have hdata : (intToStr i).data = (natToStr i.natAbs).data := by
      simp [intToStr, hi]
    rw [strToInt?, hdata]
    by_cases hz : i.natAbs = 0
    · have hi0 : i = 0 := by omega
      subst hi0
      rfl
    · rw [data_natToStr, if_neg hz]
      rcases hx : natDigits i.natAbs with _ | ⟨c, cs⟩
      · exact absurd hx (natDigitsAux_ne_nil _ _ (by omega) hz)
      · have hcm : c ≠ '-' := natDigits_no_minus i.natAbs c (by rw [hx]; exact .head _)
        have hp : parseCanonNat? (c :: cs) = some i.natAbs := by
          rw [← hx, parseCanonNat?_natDigits _ hz]
        rw [strToIntL?, if_neg hcm, hp]
        simp
        omega

/-! ## XML escaping

Embedding of `escapeXML` (src/src/index.ts lines 1134-1142): five sequential
global single-character replacements, ampersand first.  `unescapeXMLL` is the
standard XML entity decoder used to state the round-trip property, and
`noRawAux` checks that a character list contains no raw reserved character:
no `<`, `>`, `"`, `'` at all, and every `&` opening one of the five
entities. -/

def aposCh : Char := Char.ofNat 39

def entAmp : List Char := ['&', 'a', 'm', 'p', ';']
def entLt : List Char := ['&', 'l', 't', ';']
def entGt : List Char := ['&', 'g', 't', ';']
def entQuot : List Char := ['&', 'q', 'u', 'o', 't', ';']
def entApos : List Char := ['&', '#', '3', '9', ';']

/-- One global replacement `str.replace(/c/g, rep)` at character granularity. -/
def replaceChar (c : Char) (rep : List Char) : List Char → List Char
  | [] => []
  | x :: xs => (if x = c then rep else [x]) ++ replaceChar c rep xs

/-- Embedding of `escapeXML`, following the source's substitution order. -/
def escapeXMLL (l : List Char) : List Char :=
  replaceChar aposCh entApos
    (replaceChar '"' entQuot
      (replaceChar '>' entGt
        (replaceChar '<' entLt
          (replaceChar '&' entAmp l))))

def escapeXML (s : String) : String := String.mk (escapeXMLL s.data)

/-- Intended single-pass reading of the escaper: each reserved character is
substituted exactly once. -/
def escChar (c : Char) : List Char :=
  if c = '&' then entAmp
  else if c = '<' then entLt
  else if c = '>' then entGt
  else if c = '"' then entQuot
  else if c = aposCh then entApos
  else [c]

def escapeOnce : List Char → List Char
  | [] => []
  | c :: cs => escChar c ++ escapeOnce cs

def isPre (p l : List Char) : Bool := List.isPrefixOf p l

/-- Standard XML entity decoding (the five entities the escaper emits). -/
def unescapeAux : Nat → List Char → List Char
  | _, [] => []
  | 0, l => l
  | f + 1, c :: cs =>
    if c = '&' then
      if isPre ['a', 'm', 'p', ';'] cs then '&' :: unescapeAux f (cs.drop 4)
      else if isPre ['l', 't', ';'] cs then '<' :: unescapeAux f (cs.drop 3)
      else if isPre ['g', 't', ';'] cs then '>' :: unescapeAux f (cs.drop 3)
      else if isPre ['q', 'u', 'o', 't', ';'] cs then '"' :: unescapeAux f (cs.drop 5)
      else if isPre ['#', '3', '9', ';'] cs then aposCh :: unescapeAux f (cs.drop 4)
      else c :: unescapeAux f cs
    else c :: unescapeAux f cs

def unescapeXMLL (l : List Char) : List Char := unescapeAux l.length l

def unescapeXML (s : String) : String := String.mk (unescapeXMLL s.data)

/-- Raw-reserved-character check: `true` when the list has no `<`, `>`, `"`,
`'`, and every `&` starts one of the five entities. -/
def noRawAux : Nat → List Char → Bool
  | _, [] => true
  | 0, _ :: _ => false
  | f + 1, c :: cs =>
    if c = '<' ∨ c = '>' ∨ c = '"' ∨ c = aposCh then false
    else if c = '&' then
      (isPre ['a', 'm', 'p', ';'] cs && noRawAux f (cs.drop 4)) ||
      (isPre ['l', 't', ';'] cs && noRawAux f (cs.drop 3)) ||
      (isPre ['g', 't', ';'] cs && noRawAux f (cs.drop 3)) ||
      (isPre ['q', 'u', 'o', 't', ';'] cs && noRawAux f (cs.drop 5)) ||
      (isPre ['#', '3', '9', ';'] cs && noRawAux f (cs.drop 4))
    else noRawAux f cs

def noRawReserved (l : List Char) : Bool := noRawAux l.length l

theorem replaceChar_append (c : Char) (rep : List Char) :
    ∀ a b, replaceChar c rep (a ++ b) = replaceChar c rep a ++ replaceChar c rep b := by
  intro a b
  induction a with
  | nil => rfl
  | cons x xs ih => simp [replaceChar, ih]

/-- Pointwise form of the escaper: since ampersand is replaced first, the
later replacements never touch the substitutions already made, so the
sequential escaper acts once per original character. -/
theorem escapeXMLL_cons (x : Char) (xs : List Char) :
    escapeXMLL (x :: xs) = escChar x ++ escapeXMLL xs := by
  have hstep : replaceChar '&' entAmp (x :: xs) =
      (if x = '&' then entAmp else [x]) ++ replaceChar '&' entAmp xs := rfl
  by_cases h1 : x = '&'
  · subst h1
    simp only [escapeXMLL, hstep, if_pos rfl, replaceChar_append]
    rfl
  · by_cases h2 : x = '<'
    · subst h2
      simp only [escapeXMLL, hstep, if_neg h1, replaceChar_append]
      rfl
    · by_cases h3 : x = '>'
      · subst h3
        simp only [escapeXMLL, hstep, if_neg h1, replaceChar_append]
        rfl
      · by_cases h4 : x = '"'
        · subst h4
          simp only [escapeXMLL, hstep, if_neg h1, replaceChar_append]
          rfl
        · by_cases h5 : x = aposCh
          · subst h5
            simp only [escapeXMLL, hstep, if_neg h1, replaceChar_append]
            rfl
          · simp only [escapeXMLL, hstep, if_neg h1, replaceChar_append,
              escChar, if_neg h2, if_neg h3, if_neg h4, if_neg h5]
            simp [replaceChar, if_neg h1, if_neg h2, if_neg h3, if_neg h4, if_neg h5]

theorem escapeXMLL_eq_escapeOnce (l : List Char) : escapeXMLL l = escapeOnce l := by
  induction l with
  | nil => rfl
  | cons x xs ih => rw [escapeXMLL_cons, escapeOnce, ih]

theorem unescapeAux_nil (f : Nat) : unescapeAux f [] = [] := by
  cases f <;> rfl

theorem unescapeAux_amp (f : Nat) (rest : List Char) :
    unescapeAux (f + 1) ('&' :: 'a' :: 'm' :: 'p' :: ';' :: rest) =
      '&' :: unescapeAux f rest := by
  simp [unescapeAux, isPre, List.isPrefixOf]

theorem unescapeAux_lt (f : Nat) (rest : List Char) :
    unescapeAux (f + 1) ('&' :: 'l' :: 't' :: ';' :: rest) =
      '<' :: unescapeAux f rest := by
  simp [unescapeAux, isPre, List.isPrefixOf]

theorem unescapeAux_gt (f : Nat) (rest : List Char) :
    unescapeAux (f + 1) ('&' :: 'g' :: 't' :: ';' :: rest) =
      '>' :: unescapeAux f rest := by
  simp [unescapeAux, isPre, List.isPrefixOf]

theorem unescapeAux_quot (f : Nat) (rest : List Char) :
    unescapeAux (f + 1) ('&' :: 'q' :: 'u' :: 'o' :: 't' :: ';' :: rest) =
      '"' :: unescapeAux f rest := by
  simp [unescapeAux, isPre, List.isPrefixOf]

theorem unescapeAux_apos (f : Nat) (rest : List Char) :
    unescapeAux (f + 1) ('&' :: '#' :: '3' :: '9' :: ';' :: rest) =
      aposCh :: unescapeAux f rest := by
  simp [unescapeAux, isPre, List.isPrefixOf, aposCh]

theorem unescapeAux_plain (f : Nat) (c : Char) (rest : List Char) (h : c ≠ '&') :
    unescapeAux (f + 1) (c :: rest) = c :: unescapeAux f rest := by
  simp [unescapeAux, h]

theorem escChar_default (c : Char) (h1 : c ≠ '&') (h2 : c ≠ '<') (h3 : c ≠ '>')
    (h4 : c ≠ '"') (h5 : c ≠ aposCh) : escChar c = [c] := by
  simp [escChar, h1, h2, h3, h4, h5]

theorem noRawAux_nil (f : Nat) : noRawAux f [] = true := by
  cases f <;> rfl

theorem noRawAux_amp (f : Nat) (rest : List Char) :
    noRawAux (f + 1) ('&' :: 'a' :: 'm' :: 'p' :: ';' :: rest) = noRawAux f rest := by
  rw [noRawAux, if_neg (by decide), if_pos rfl]
  simp [isPre, List.isPrefixOf]

theorem noRawAux_lt (f : Nat) (rest : List Char) :
    noRawAux (f + 1) ('&' :: 'l' :: 't' :: ';' :: rest) = noRawAux f rest := by
  rw [noRawAux, if_neg (by decide), if_pos rfl]
  simp [isPre, List.isPrefixOf]

theorem noRawAux_gt (f : Nat) (rest : List Char) :
    noRawAux (f + 1) ('&' :: 'g' :: 't' :: ';' :: rest) = noRawAux f rest := by
  rw [noRawAux, if_neg (by decide), if_pos rfl]
  simp [isPre, List.isPrefixOf]

theorem noRawAux_quot (f : Nat) (rest : List Char) :
    noRawAux (f + 1) ('&' :: 'q' :: 'u' :: 'o' :: 't' :: ';' :: rest) = noRawAux f rest := by
  rw [noRawAux, if_neg (by decide), if_pos rfl]
  simp [isPre, List.isPrefixOf]

theorem noRawAux_apos (f : Nat) (rest : List Char) :
    noRawAux (f + 1) ('&' :: '#' :: '3' :: '9' :: ';' :: rest) = noRawAux f rest := by
  rw [noRawAux, if_neg (by decide), if_pos rfl]
  simp [isPre, List.isPrefixOf]

theorem noRawAux_plain (f : Nat) (c : Char) (rest : List Char) (h1 : c ≠ '&')
    (h2 : c ≠ '<') (h3 : c ≠ '>') (h4 : c ≠ '"') (h5 : c ≠ aposCh) :
    noRawAux (f + 1) (c :: rest) = noRawAux f rest := by
  rw [noRawAux, if_neg (by simp [h2, h3, h4, h5]), if_neg h1]

/-- Entity decoding inverts the single-pass escaper, fuel permitting. -/
theorem unescapeAux_escapeOnce :
    ∀ l f, (escapeOnce l).length ≤ f → unescapeAux f (escapeOnce l) = l := by
  intro l
  induction l with
  | nil => intro f _; exact unescapeAux_nil f
  | cons x xs ih =>
    intro f hf
    rw [escapeOnce] at hf ⊢
    by_cases h1 : x = '&'
    · subst h1
      rw [(by rfl : escChar '&' = entAmp), entAmp] at hf ⊢
      simp only [List.cons_append, List.nil_append, List.length_cons] at hf ⊢
      cases f with
      | zero => omega
      | succ f => rw [unescapeAux_amp, ih f (by omega)]
    · by_cases h2 : x = '<'
      · subst h2
        rw [(by rfl : escChar '<' = entLt), entLt] at hf ⊢
        simp only [List.cons_append, List.nil_append, List.length_cons] at hf ⊢
        cases f with
        | zero => omega
        | succ f => rw [unescapeAux_lt, ih f (by omega)]
      · by_cases h3 : x = '>'
        · subst h3
          rw [(by rfl : escChar '>' = entGt), entGt] at hf ⊢
          simp only [List.cons_append, List.nil_append, List.length_cons] at hf ⊢
          cases f with
          | zero => omega
          | succ f => rw [unescapeAux_gt, ih f (by omega)]
        · by_cases h4 : x = '"'
          · subst h4
            rw [(by rfl : escChar '"' = entQuot), entQuot] at hf ⊢
            simp only [List.cons_append, List.nil_append, List.length_cons] at hf ⊢
            cases f with
            | zero => omega
            | succ f => rw [unescapeAux_quot, ih f (by omega)]
          · by_cases h5 : x = aposCh
            · subst h5
              rw [(by rfl : escChar aposCh = entApos), entApos] at hf ⊢
              simp only [List.cons_append, List.nil_append, List.length_cons] at hf ⊢
              cases f with
              | zero => omega
              | succ f => rw [unescapeAux_apos, ih f (by omega)]
            · rw [escChar_default x h1 h2 h3 h4 h5] at hf ⊢
              simp only [List.cons_append, List.nil_append, List.length_cons] at hf ⊢
              cases f with
              | zero => omega
              | succ f => rw [unescapeAux_plain f x _ h1, ih f (by omega)]

/-- The escaped output never contains a raw reserved character. -/
theorem noRawAux_escapeOnce :
    ∀ l f, (escapeOnce l).length ≤ f → noRawAux f (escapeOnce l) = true := by
  intro l
  induction l with
  | nil => intro f _; exact noRawAux_nil f
  | cons x xs ih =>
    intro f hf
    rw [escapeOnce] at hf ⊢
    by_cases h1 : x = '&'
    · subst h1
      rw [(by rfl : escChar '&' = entAmp), entAmp] at hf ⊢
      simp only [List.cons_append, List.nil_append, List.length_cons] at hf ⊢
      cases f with
      | zero => omega
      | succ f => rw [noRawAux_amp, ih f (by omega)]
    · by_cases h2 : x = '<'
      · subst h2
        rw [(by rfl : escChar '<' = entLt), entLt] at hf ⊢
        simp only [List.cons_append, List.nil_append, List.length_cons] at hf ⊢
        cases f with
        | zero => omega
        | succ f => rw [noRawAux_lt, ih f (by omega)]
      · by_cases h3 : x = '>'
        · subst h3
          rw [(by rfl : escChar '>' = entGt), entGt] at hf ⊢
          simp only [List.cons_append, List.nil_append, List.length_cons] at hf ⊢
          cases f with
          | zero => omega
          | succ f => rw [noRawAux_gt, ih f (by omega)]
        · by_cases h4 : x = '"'
          · subst h4
            rw [(by rfl : escChar '"' = entQuot), entQuot] at hf ⊢
            simp only [List.cons_append, List.nil_append, List.length_cons] at hf ⊢
            cases f with
            | zero => omega
            | succ f => rw [noRawAux_quot, ih f (by omega)]
          · by_cases h5 : x = aposCh
            · subst h5
              rw [(by rfl : escChar aposCh = entApos), entApos] at hf ⊢
              simp only [List.cons_append, List.nil_append, List.length_cons] at hf ⊢
              cases f with
              | zero => omega
              | succ f => rw [noRawAux_apos, ih f (by omega)]
            · rw [escChar_default x h1 h2 h3 h4 h5] at hf ⊢
              simp only [List.cons_append, List.nil_append, List.length_cons] at hf ⊢
              cases f with
              | zero => omega
              | succ f => rw [noRawAux_plain f x _ h1 h2 h3 h4 h5, ih f (by omega)]

theorem data_escapeXML (s : String) : (escapeXML s).data = escapeOnce s.data := by
  rw [escapeXML]
  exact escapeXMLL_eq_escapeOnce s.data

theorem unescapeXML_escapeXML (s : String) : unescapeXML (escapeXML s) = s := by
  rw [unescapeXML]
  rw [data_escapeXML, unescapeXMLL, unescapeAux_escapeOnce s.data _ le_rfl]

/-- Claim C4: for every string containing reserved XML characters, the output
of `escapeXML` contains none of the five raw reserved characters (every
remaining ampersand opens an entity), decoding it by the standard XML entity
rules recovers the original string, and each reserved character is
substituted exactly once, in the source's substitution order ampersand first,
so the ampersand escape never re-escapes the other substitutions (the
sequential escaper equals the single-pass escaper `escapeOnce`). -/
theorem escapeXML_no_raw_roundtrip_once (s : String)
    (h : ∃ c ∈ s.data, c = '&' ∨ c = '<' ∨ c = '>' ∨ c = '"' ∨ c = aposCh) :
    noRawReserved (escapeXML s).data = true ∧
    unescapeXML (escapeXML s) = s ∧
    (escapeXML s).data = escapeOnce s.data := by
  refine ⟨?_, unescapeXML_escapeXML s, data_escapeXML s⟩
  rw [data_escapeXML, noRawReserved]
  exact noRawAux_escapeOnce s.data _ le_rfl

/-- Witness: the theorem applied at the concrete input "a&<b". -/
theorem escapeXML_no_raw_roundtrip_once_witness :
    noRawReserved (escapeXML "a&<b").data = true ∧
    unescapeXML (escapeXML "a&<b") = "a&<b" ∧
    (escapeXML "a&<b").data = escapeOnce "a&<b".data :=
  escapeXML_no_raw_roundtrip_once "a&<b" (by decide)

/-! ## JavaScript value model

Upstream JSON payloads and the values the renderers manipulate are modelled
by `JSVal`.  JavaScript numbers are modelled as integers (every numeric value
the analysed code paths exercise is integral).  Property access on
non-objects yields `undefined`, matching the optional-chaining and guarded
accesses of the source. -/

inductive JSVal where
  | undef
  | null
  | bool (b : Bool)
  | num (n : Int)
  | str (s : String)
  | arr (elems : List JSVal)
  | obj (fields : List (String × JSVal))

/-- JavaScript truthiness. -/
def truthy : JSVal → Bool
  | .undef => false
  | .null => false
  | .bool b => b
  | .num n => decide (n ≠ 0)
  | .str s => decide (s ≠ "")
  | .arr _ => true
  | .obj _ => true

def lookupField : List (String × JSVal) → String → Option JSVal
  | [], _ => none
  | (k, v) :: rest, key => if k = key then some v else lookupField rest key

/-- Property access `v.key` (with `v?.key` semantics on non-objects); arrays
expose their `length`. -/
def getF : JSVal → String → JSVal
  | .obj fs, key => (lookupField fs key).getD .undef
  | .arr xs, key => if key = "length" then .num (xs.length : Int) else .undef
  | _, _ => (.undef)

/-- JavaScript `a || b`. -/
def jsOr (a b : JSVal) : JSVal := if truthy a then a else b

def joinSep (sep : String) : List String → String
  | [] => ""
  | [x] => x
  | x :: y :: ys => x ++ sep ++ joinSep sep (y :: ys)

mutual
/-- Conversion of a value interpolated into a template literal (also
`String(v)`): `undefined` prints as "undefined", `null` as "null", arrays
join their elements with commas (with null/undefined elements printing
empty), objects print as "[object Object]". -/
def toTmpl : JSVal → String
  | .undef => "undefined"
  | .null => "null"
  | .bool b => if b then "true" else "false"
  | .num n => intToStr n
  | .str s => s
  | .arr xs => toTmplArr xs
  | .obj _ => "[object Object]"

def toTmplArr : List JSVal → String
  | [] => ""
  | [e] => toTmplElem e
  | e :: e2 :: es => toTmplElem e ++ "," ++ toTmplArr (e2 :: es)

def toTmplElem : JSVal → String
  | .undef => ""
  | .null => ""
  | v => toTmpl v
end

def spacesStr (n : Nat) : String := String.mk (List.replicate n ' ')

/-! ## The recursive JSON-to-XML serializer

Embedding of `jsonToXML` (src/src/index.ts lines 1144-1187).  `null` and
`undefined` both serialize to `<value>null</value>`; strings are escaped,
numbers and booleans are interpolated unescaped; arrays wrap each element in
an indexed `<item>`; objects produce one element per key, named by the
escaped key. -/

mutual
def jsonToXML : JSVal → Nat → String
  | .null, ind => spacesStr ind ++ "<value>null</value>"
  | .undef, ind => spacesStr ind ++ "<value>null</value>"
  | .str s, ind => spacesStr ind ++ "<value>" ++ escapeXML s ++ "</value>"
  | .num n, ind => spacesStr ind ++ "<value>" ++ intToStr n ++ "</value>"
  | .bool b, ind =>
    spacesStr ind ++ "<value>" ++ (if b then "true" else "false") ++ "</value>"
  | .arr [], ind => spacesStr ind ++ "<array></array>"
  | .arr (e :: es), ind =>
    spacesStr ind ++ "<array>\n" ++ itemsToXML (e :: es) 0 ind ++ "\n" ++
      spacesStr ind ++ "</array>"
  | .obj [], ind => spacesStr ind ++ "<object></object>"
  | .obj (f :: fs), ind =>
    spacesStr ind ++ "<object>\n" ++ fieldsToXML (f :: fs) ind ++ "\n" ++
      spacesStr ind ++ "</object>"

def itemToXML : JSVal → Nat → Nat → String
  | e, idx, ind =>
    spacesStr ind ++ "  <item index=\"" ++ natToStr idx ++ "\">\n" ++
      jsonToXML e (ind + 2) ++ "\n" ++ spacesStr ind ++ "  </item>"

def itemsToXML : List JSVal → Nat → Nat → String
  | [], _, _ => ""
  | [e], idx, ind => itemToXML e idx ind
  | e :: e2 :: es, idx, ind =>
    itemToXML e idx ind ++ "\n" ++ itemsToXML (e2 :: es) (idx + 1) ind

def fieldToXML : String → JSVal → Nat → String
  | k, v, ind =>
    spacesStr ind ++ "  <" ++ escapeXML k ++ ">\n" ++ jsonToXML v (ind + 2) ++
      "\n" ++ spacesStr ind ++ "  </" ++ escapeXML k ++ ">"

def fieldsToXML : List (String × JSVal) → Nat → String
  | [], _ => ""
  | [(k, v)], ind => fieldToXML k v ind
  | (k, v) :: f2 :: fs, ind =>
    fieldToXML k v ind ++ "\n" ++ fieldsToXML (f2 :: fs) ind
end

/-! ## Structural XML parsing

To settle the round-trip claim for `jsonToXML`, `parseVal` is a structural
parser for the XML the serializer emits: it skips formatting whitespace
between elements, reads `<value>` leaves as text up to the closing tag, and
reads `<array>`/`<object>` elements recursively.  Leaf text is classified by
the standard reading: `null`, `true`, `false`, a canonical integer, or an
entity-decoded string.  The parser is fuelled (first argument) so that all
definitions are structurally recursive. -/

def spacesL (n : Nat) : List Char := List.replicate n ' '

def isWsCh (c : Char) : Bool := c = ' ' || c = '\n' || c = '\t' || c = '\r'

def skipWs : List Char → List Char
  | [] => []
  | c :: cs => if isWsCh c then skipWs cs else c :: cs

/-- Consume an expected prefix. -/
def dropPre : List Char → List Char → Option (List Char)
  | [], l => some l
  | _ :: _, [] => none
  | p :: ps, c :: cs => if c = p then dropPre ps cs else none

/-- Split at the first occurrence of a character (excluded from the prefix,
kept in the remainder). -/
def splitAtCh (stop : Char) : List Char → Option (List Char × List Char)
  | [] => none
  | c :: cs =>
    if c = stop then some ([], c :: cs)
    else
      match splitAtCh stop cs with
      | some (t, r) => some (c :: t, r)
      | none => none

/-- Split at the first occurrence of a character, consuming it. -/
def splitConsumeCh (stop : Char) : List Char → Option (List Char × List Char)
  | [] => none
  | c :: cs =>
    if c = stop then some ([], cs)
    else
      match splitConsumeCh stop cs with
      | some (t, r) => some (c :: t, r)
      | none => none

def vTagL : List Char := "<value>".data
def vCloseL : List Char := "</value>".data
def aTagL : List Char := "<array>".data
def aCloseL : List Char := "</array>".data
def oTagL : List Char := "<object>".data
def oCloseL : List Char := "</object>".data
def iTagL : List Char := "<item index=\"".data
def iCloseL : List Char := "</item>".data

def fieldCloseL (k : List Char) : List Char := '<' :: '/' :: (k ++ ['>'])

/-- Classification of a `<value>` leaf's text under the standard reading.
`jsonToXML` prints the null value, booleans, numbers and strings into the
same textual position, so the reading maps ambiguous texts to the scalar
they denote. -/
def classifyText (t : List Char) : JSVal :=
  if t = "null".data then .null
  else if t = "true".data then .bool true
  else if t = "false".data then .bool false
  else
    match strToIntL? t with
    | some n => .num n
    | none => .str (String.mk (unescapeXMLL t))

mutual
def parseVal : Nat → List Char → Option (JSVal × List Char)
  | 0, _ => none
  | f + 1, l0 =>
    let l := skipWs l0
    match dropPre vTagL l with
    | some r =>
      match splitAtCh '<' r with
      | some (t, r2) =>
        match dropPre vCloseL r2 with
        | some r3 => some (classifyText t, r3)
        | none => none
      | none => none
    | none =>
      match dropPre aTagL l with
      | some r =>
        match dropPre aCloseL r with
        | some r2 => some (.arr [], r2)
        | none =>
          match parseItems f r with
          | some (es, r2) =>
            match dropPre aCloseL (skipWs r2) with
            | some r3 => some (.arr es, r3)
            | none => none
          | none => none
      | none =>
        match dropPre oTagL l with
        | some r =>
          match dropPre oCloseL r with
          | some r2 => some (.obj [], r2)
          | none =>
            match parseFields f r with
            | some (fs, r2) =>
              match dropPre oCloseL (skipWs r2) with
              | some r3 => some (.obj fs, r3)
              | none => none
            | none => none
        | none => none

def parseItems : Nat → List Char → Option (List JSVal × List Char)
  | 0, _ => none
  | f + 1, l =>
    match dropPre iTagL (skipWs l) with
    | none => some ([], l)
    | some r =>
      match splitConsumeCh '"' r with
      | some (_, r1) =>
        match dropPre ['>'] r1 with
        | some r2 =>
          match parseVal f r2 with
          | some (e, r3) =>
            match dropPre iCloseL (skipWs r3) with
            | some r4 =>
              match parseItems f r4 with
              | some (es, r5) => some (e :: es, r5)
              | none => none
            | none => none
          | none => none
        | none => none
      | none => none

def parseFields : Nat → List Char → Option (List (String × JSVal) × List Char)
  | 0, _ => none
  | f + 1, l =>
    match skipWs l with
    | '<' :: d :: ds =>
      if d = '/' then some ([], l)
      else
        match splitConsumeCh '>' (d :: ds) with
        | some (k, r1) =>
          match parseVal f r1 with
          | some (v, r2) =>
            match dropPre (fieldCloseL k) (skipWs r2) with
            | some r3 =>
              match parseFields f r3 with
              | some (fs, r4) => some ((String.mk (unescapeXMLL k), v) :: fs, r4)
              | none => none
            | none => none
          | none => none
        | none => none
    | _ => some ([], l)
end

/-- Top-level structural parse of a serialized value. -/
def parseJsonXML (s : String) : Option JSVal :=
  match parseVal (s.data.length + 1) s.data with
  | some (v, rest) => if skipWs rest = [] then some v else none
  | none => none

mutual
/-- Image of a value under the serialize-then-parse round trip: `undefined`
collapses to null, and string leaves are re-read under the standard
classification (so the string "null" collapses to the null value, "5" to the
number 5, and so on).  On `unambiguous` values this is the identity. -/
def collapse : JSVal → JSVal
  | .undef => .null
  | .null => .null
  | .bool b => .bool b
  | .num n => .num n
  | .str s => classifyText (escapeXMLL s.data)
  | .arr es => .arr (collapseList es)
  | .obj fs => .obj (collapseFields fs)

def collapseList : List JSVal → List JSVal
  | [] => []
  | e :: es => collapse e :: collapseList es

def collapseFields : List (String × JSVal) → List (String × JSVal)
  | [] => []
  | (k, v) :: fs => (k, collapse v) :: collapseFields fs
end

/-- String leaves whose text is indistinguishable from the serialization of
null, a boolean or a number. -/
def ambiguousStr (s : String) : Bool :=
  decide (s = "null") || decide (s = "true") || decide (s = "false") ||
    (strToIntL? s.data).isSome

/-- Object keys starting with a slash would render as closing tags. -/
def keyOk (k : String) : Bool :=
  match k.data with
  | '/' :: _ => false
  | _ => true

mutual
/-- Values whose serialization is structurally unambiguous: no `undefined`,
no string leaf that mimics a scalar literal, no object key opening like a
closing tag. -/
def unambiguous : JSVal → Bool
  | .undef => false
  | .null => true
  | .bool _ => true
  | .num _ => true
  | .str s => !ambiguousStr s
  | .arr es => unambiguousList es
  | .obj fs => unambiguousFields fs

def unambiguousList : List JSVal → Bool
  | [] => true
  | e :: es => unambiguous e && unambiguousList es

def unambiguousFields : List (String × JSVal) → Bool
  | [] => true
  | (k, v) :: fs => keyOk k && unambiguous v && unambiguousFields fs
end

mutual
/-- Fuel sufficient for `parseVal` to consume the serialization of `v`. -/
def fuelV : JSVal → Nat
  | .arr es => 1 + fuelItems es
  | .obj fs => 1 + fuelFields fs
  | _ => 1

def fuelItems : List JSVal → Nat
  | [] => 1
  | e :: es => 1 + fuelV e + fuelItems es

def fuelFields : List (String × JSVal) → Nat
  | [] => 1
  | (_, v) :: fs => 1 + fuelV v + fuelFields fs
end

theorem skipWs_ws_cons (c : Char) (x : List Char) (h : isWsCh c = true) :
    skipWs (c :: x) = skipWs x := by
  simp [skipWs, h]

theorem skipWs_cons_not_ws (c : Char) (x : List Char) (h : isWsCh c = false) :
    skipWs (c :: x) = c :: x := by
  simp [skipWs, h]

theorem skipWs_spacesL (n : Nat) (x : List Char) : skipWs (spacesL n ++ x) = skipWs x := by
  induction n with
  | zero => rfl
  | succ n ih =>
    rw [spacesL, List.replicate_succ, List.cons_append, skipWs_ws_cons _ _ (by decide)]
    exact ih

theorem skipWs_nl (x : List Char) : skipWs ('\n' :: x) = skipWs x :=
  skipWs_ws_cons _ _ (by decide)

theorem skipWs_lt (x : List Char) : skipWs ('<' :: x) = '<' :: x :=
  skipWs_cons_not_ws _ _ (by decide)

theorem skipWs_nil : skipWs [] = [] := rfl

theorem dropPre_append (p x : List Char) : dropPre p (p ++ x) = some x := by
  induction p with
  | nil => rfl
  | cons c cs ih => simp [dropPre, ih]

theorem splitAtCh_of_not_mem (stop : Char) (t r : List Char) (h : stop ∉ t) :
    splitAtCh stop (t ++ stop :: r) = some (t, stop :: r) := by
  induction t with
  | nil => simp [splitAtCh]
  | cons c cs ih =>
    have hc : c ≠ stop := fun he => h (he ▸ List.mem_cons_self c cs)
    rw [List.cons_append, splitAtCh, if_neg (by simpa using fun he => hc he)]
    rw [ih (fun hm => h (List.mem_cons_of_mem c hm))]

theorem splitConsumeCh_of_not_mem (stop : Char) (t r : List Char) (h : stop ∉ t) :
    splitConsumeCh stop (t ++ stop :: r) = some (t, r) := by
  induction t with
  | nil => simp [splitConsumeCh]
  | cons c cs ih =>
    have hc : c ≠ stop := fun he => h (he ▸ List.mem_cons_self c cs)
    rw [List.cons_append, splitConsumeCh, if_neg (by simpa using fun he => hc he)]
    rw [ih (fun hm => h (List.mem_cons_of_mem c hm))]

/-- Escaped output contains no `<`, `>` or `"`. -/
theorem escapeOnce_no_angle :
    ∀ l, ∀ c ∈ escapeOnce l, c ≠ '<' ∧ c ≠ '>' ∧ c ≠ '"' := by
  intro l
  induction l with
  | nil => intro c hc; simp [escapeOnce] at hc
  | cons x xs ih =>
    intro c hc
    rw [escapeOnce] at hc
    rcases List.mem_append.mp hc with hm | hm
    · by_cases h1 : x = '&'
      · subst h1; rw [(by rfl : escChar '&' = entAmp)] at hm
        fin_cases hm <;> refine ⟨by decide, by decide, by decide⟩
      · by_cases h2 : x = '<'
        · subst h2; rw [(by rfl : escChar '<' = entLt)] at hm
          fin_cases hm <;> refine ⟨by decide, by decide, by decide⟩
        · by_cases h3 : x = '>'
          · subst h3; rw [(by rfl : escChar '>' = entGt)] at hm
            fin_cases hm <;> refine ⟨by decide, by decide, by decide⟩
          · by_cases h4 : x = '"'
            · subst h4; rw [(by rfl : escChar '"' = entQuot)] at hm
              fin_cases hm <;> refine ⟨by decide, by decide, by decide⟩
            · by_cases h5 : x = aposCh
              · subst h5; rw [(by rfl : escChar aposCh = entApos)] at hm
                fin_cases hm <;> refine ⟨by decide, by decide, by decide⟩
              · rw [escChar_default x h1 h2 h3 h4 h5] at hm
                rcases List.mem_singleton.mp hm with rfl
                exact ⟨h2, h3, h4⟩
    · exact ih c hm

theorem natDigits_chars (n : Nat) : ∀ c ∈ natDigits n, isDigitCh c = true :=
  natDigitsAux_all_digits n n

theorem isDigitCh_ne (c : Char) (h : isDigitCh c = true) :
    c ≠ '"' ∧ c ≠ '<' ∧ c ≠ '>' := by
  simp only [isDigitCh, Bool.and_eq_true, decide_eq_true_eq] at h
  refine ⟨?_, ?_, ?_⟩ <;> rintro rfl <;> simp at h <;> omega

theorem data_spacesStr (n : Nat) : (spacesStr n).data = spacesL n := rfl

theorem data_jsonToXML_null (ind : Nat) :
    (jsonToXML .null ind).data = spacesL ind ++ (vTagL ++ ("null".data ++ vCloseL)) := by
  simp only [jsonToXML, String.data_append, data_spacesStr, List.append_assoc]
  simp [vTagL, vCloseL, aTagL, aCloseL, oTagL, oCloseL, iTagL, iCloseL]

theorem data_jsonToXML_undef (ind : Nat) :
    (jsonToXML .undef ind).data = spacesL ind ++ (vTagL ++ ("null".data ++ vCloseL)) := by
  simp only [jsonToXML, String.data_append, data_spacesStr, List.append_assoc]
  simp [vTagL, vCloseL, aTagL, aCloseL, oTagL, oCloseL, iTagL, iCloseL]

theorem data_jsonToXML_str (s : String) (ind : Nat) :
    (jsonToXML (.str s) ind).data =
      spacesL ind ++ (vTagL ++ (escapeOnce s.data ++ vCloseL)) := by
  simp only [jsonToXML, String.data_append, data_spacesStr, data_escapeXML,
    List.append_assoc]
  simp [vTagL, vCloseL]

theorem data_jsonToXML_num (n : Int) (ind : Nat) :
    (jsonToXML (.num n) ind).data =
      spacesL ind ++ (vTagL ++ ((intToStr n).data ++ vCloseL)) := by
  simp only [jsonToXML, String.data_append, data_spacesStr, List.append_assoc]
  simp [vTagL, vCloseL, aTagL, aCloseL, oTagL, oCloseL, iTagL, iCloseL]

theorem data_jsonToXML_bool (b : Bool) (ind : Nat) :
    (jsonToXML (.bool b) ind).data =
      spacesL ind ++ (vTagL ++ ((if b then "true" else "false").data ++ vCloseL)) := by
  simp only [jsonToXML, String.data_append, data_spacesStr, List.append_assoc]
  simp [vTagL, vCloseL, aTagL, aCloseL, oTagL, oCloseL, iTagL, iCloseL]

theorem data_jsonToXML_boolTrue (ind : Nat) :
    (jsonToXML (.bool true) ind).data =
      spacesL ind ++ (vTagL ++ ("true".data ++ vCloseL)) := by
  rw [data_jsonToXML_bool]
  simp

theorem data_jsonToXML_boolFalse (ind : Nat) :
    (jsonToXML (.bool false) ind).data =
      spacesL ind ++ (vTagL ++ ("false".data ++ vCloseL)) := by
  rw [data_jsonToXML_bool]
  simp

theorem data_jsonToXML_arrNil (ind : Nat) :
    (jsonToXML (.arr []) ind).data = spacesL ind ++ (aTagL ++ aCloseL) := by
  simp only [jsonToXML, String.data_append, data_spacesStr, List.append_assoc]
  simp [vTagL, vCloseL, aTagL, aCloseL, oTagL, oCloseL, iTagL, iCloseL]

theorem data_jsonToXML_arrCons (e : JSVal) (es : List JSVal) (ind : Nat) :
    (jsonToXML (.arr (e :: es)) ind).data =
      spacesL ind ++ (aTagL ++ ('\n' :: ((itemsToXML (e :: es) 0 ind).data ++
        ('\n' :: (spacesL ind ++ aCloseL))))) := by
  simp only [jsonToXML, String.data_append, data_spacesStr, List.append_assoc]
  simp [vTagL, vCloseL, aTagL, aCloseL, oTagL, oCloseL, iTagL, iCloseL]

theorem data_jsonToXML_objNil (ind : Nat) :
    (jsonToXML (.obj []) ind).data = spacesL ind ++ (oTagL ++ oCloseL) := by
  simp only [jsonToXML, String.data_append, data_spacesStr, List.append_assoc]
  simp [vTagL, vCloseL, aTagL, aCloseL, oTagL, oCloseL, iTagL, iCloseL]

theorem data_jsonToXML_objCons (f0 : String × JSVal) (fs : List (String × JSVal))
    (ind : Nat) :
    (jsonToXML (.obj (f0 :: fs)) ind).data =
      spacesL ind ++ (oTagL ++ ('\n' :: ((fieldsToXML (f0 :: fs) ind).data ++
        ('\n' :: (spacesL ind ++ oCloseL))))) := by
  simp only [jsonToXML, String.data_append, data_spacesStr, List.append_assoc]
  simp [vTagL, vCloseL, aTagL, aCloseL, oTagL, oCloseL, iTagL, iCloseL]

theorem data_itemToXML (e : JSVal) (idx ind : Nat) :
    (itemToXML e idx ind).data =
      spacesL ind ++ (' ' :: ' ' :: (iTagL ++ ((natToStr idx).data ++
        ('"' :: '>' :: '\n' :: ((jsonToXML e (ind + 2)).data ++
          ('\n' :: (spacesL ind ++ (' ' :: ' ' :: iCloseL)))))))) := by
  simp only [itemToXML, String.data_append, data_spacesStr, List.append_assoc]
  simp [iTagL, iCloseL]

theorem data_fieldToXML (k : String) (v : JSVal) (ind : Nat) :
    (fieldToXML k v ind).data =
      spacesL ind ++ (' ' :: ' ' :: '<' :: (escapeOnce k.data ++
        ('>' :: '\n' :: ((jsonToXML v (ind + 2)).data ++
          ('\n' :: (spacesL ind ++ (' ' :: ' ' :: '<' :: '/' ::
            (escapeOnce k.data ++ ['>'])))))))) := by
  simp only [fieldToXML, String.data_append, data_spacesStr, data_escapeXML,
    List.append_assoc]
  simp

theorem data_itemsToXML_single (e : JSVal) (idx ind : Nat) :
    (itemsToXML [e] idx ind).data = (itemToXML e idx ind).data := by
  simp [itemsToXML]

theorem data_itemsToXML_cons (e e2 : JSVal) (es : List JSVal) (idx ind : Nat) :
    (itemsToXML (e :: e2 :: es) idx ind).data =
      (itemToXML e idx ind).data ++ ('\n' :: (itemsToXML (e2 :: es) (idx + 1) ind).data) := by
  simp only [itemsToXML, String.data_append, List.append_assoc]
  simp

theorem data_fieldsToXML_single (k : String) (v : JSVal) (ind : Nat) :
    (fieldsToXML [(k, v)] ind).data = (fieldToXML k v ind).data := by
  simp [fieldsToXML]

theorem data_fieldsToXML_cons (k : String) (v : JSVal) (f2 : String × JSVal)
    (fs : List (String × JSVal)) (ind : Nat) :
    (fieldsToXML ((k, v) :: f2 :: fs) ind).data =
      (fieldToXML k v ind).data ++ ('\n' :: (fieldsToXML (f2 :: fs) ind).data) := by
  simp only [fieldsToXML, String.data_append, List.append_assoc]
  simp

theorem skipWs_ws_append (ws x : List Char) (h : ∀ c ∈ ws, isWsCh c = true) :
    skipWs (ws ++ x) = skipWs x := by
  induction ws with
  | nil => rfl
  | cons c cs ih =>
    rw [List.cons_append, skipWs_ws_cons _ _ (h c (.head _))]
    exact ih (fun c hc => h c (.tail _ hc))

theorem dropPre_append_left (a b c : List Char) :
    dropPre (a ++ b) (a ++ c) = dropPre b c := by
  induction a with
  | nil => rfl
  | cons x xs ih => simp [dropPre, ih]

theorem parseItems_stop (f : Nat) (tail : List Char)
    (h : dropPre iTagL (skipWs tail) = none) (hf : 1 ≤ f) :
    parseItems f tail = some ([], tail) := by
  cases f with
  | zero => omega
  | succ f => rw [parseItems, h]

theorem parseFields_stop (f : Nat) (tail z : List Char)
    (h : skipWs tail = '<' :: '/' :: z) (hf : 1 ≤ f) :
    parseFields f tail = some ([], tail) := by
  cases f with
  | zero => omega
  | succ f =>
    rw [parseFields, h]
    simp

theorem natToStr_digits (n : Nat) : ∀ c ∈ (natToStr n).data, isDigitCh c = true := by
  intro c hc
  rw [data_natToStr] at hc
  by_cases hn : n = 0
  · simp [hn] at hc
    subst hc; decide
  · rw [if_neg hn] at hc
    exact natDigits_chars n c hc

theorem parseCanonNat?_digits :
    ∀ l n, parseCanonNat? l = some n → ∀ c ∈ l, isDigitCh c = true := by
  intro l n hp c hc
  match l, hc with
  | c0 :: cs, hc =>
    rw [parseCanonNat?] at hp
    by_cases h0 : c0 = '0'
    · rw [if_pos h0] at hp
      by_cases hcs : cs = []
      · rw [if_pos hcs] at hp
        subst hcs
        rcases List.mem_singleton.mp hc with rfl
        subst h0; decide
      · rw [if_neg hcs] at hp; exact absurd hp (by simp)
    · rw [if_neg h0] at hp
      by_cases hall : (c0 :: cs).all isDigitCh = true
      · exact List.all_eq_true.mp hall c hc
      · rw [if_neg hall] at hp; exact absurd hp (by simp)

theorem strToIntL?_chars (l : List Char) (n : Int) (h : strToIntL? l = some n) :
    ∀ c ∈ l, isDigitCh c = true ∨ c = '-' := by
  intro c hc
  match l, hc with
  | c0 :: cs, hc =>
    rw [strToIntL?] at h
    by_cases hm : c0 = '-'
    · rw [if_pos hm] at h
      rcases hp : parseCanonNat? cs with _ | m
      · rw [hp] at h; exact absurd h (by simp)
      · rcases List.mem_cons.mp hc with rfl | hc2
        · exact Or.inr hm
        · exact Or.inl (parseCanonNat?_digits cs m hp c hc2)
    · rw [if_neg hm] at h
      rcases hp : parseCanonNat? (c0 :: cs) with _ | m
      · rw [hp] at h; exact absurd h (by simp)
      · exact Or.inl (parseCanonNat?_digits _ m hp c hc)

theorem unescapeAux_no_amp :
    ∀ l f, (∀ c ∈ l, c ≠ '&') → unescapeAux f l = l := by
  intro l
  induction l with
  | nil => intro f _; exact unescapeAux_nil f
  | cons c cs ih =>
    intro f h
    cases f with
    | zero => rfl
    | succ f =>
      rw [unescapeAux_plain f c cs (h c (.head _))]
      rw [ih f (fun d hd => h d (.tail _ hd))]

theorem string_eq_of_data {a b : String} (h : a.data = b.data) : a = b := by
  cases a; cases b; exact congrArg String.mk h

theorem mk_data (s : String) : String.mk s.data = s := rfl

theorem classifyText_null : classifyText "null".data = .null := rfl

theorem classifyText_true : classifyText "true".data = .bool true := rfl

theorem classifyText_false : classifyText "false".data = .bool false := rfl

theorem intToStr_data_ne (w : String) (hw : strToIntL? w.data = none) (n : Int) :
    (intToStr n).data ≠ w.data := by
  intro he
  have h := strToInt?_intToStr n
  rw [strToInt?, he, hw] at h
  exact absurd h (by simp)

theorem classifyText_intToStr (n : Int) : classifyText (intToStr n).data = .num n := by
  have h := strToInt?_intToStr n
  rw [strToInt?] at h
  rw [classifyText,
    if_neg (intToStr_data_ne "null" (by decide) n),
    if_neg (intToStr_data_ne "true" (by decide) n),
    if_neg (intToStr_data_ne "false" (by decide) n), h]

theorem isDigitCh_ne_amp (c : Char) (h : isDigitCh c = true) : c ≠ '&' := by
  simp only [isDigitCh, Bool.and_eq_true, decide_eq_true_eq] at h
  rintro rfl
  simp at h

theorem escapeOnce_roundtrip_eq (s : String) (w : String)
    (hlen : unescapeAux w.data.length w.data = w.data)
    (he : escapeOnce s.data = w.data) : s = w := by
  have h := unescapeAux_escapeOnce s.data (escapeOnce s.data).length le_rfl
  rw [he] at h
  rw [hlen] at h
  exact string_eq_of_data h.symm

theorem classifyText_escapeOnce (s : String) (h : ambiguousStr s = false) :
    classifyText (escapeOnce s.data) = .str s := by
  simp only [ambiguousStr, Bool.or_eq_false_iff, decide_eq_false_iff_not] at h
  obtain ⟨⟨⟨hn, ht⟩, hf⟩, hnum⟩ := h
  have hne1 : escapeOnce s.data ≠ "null".data := fun he =>
    hn (escapeOnce_roundtrip_eq s "null" (by decide) he)
  have hne2 : escapeOnce s.data ≠ "true".data := fun he =>
    ht (escapeOnce_roundtrip_eq s "true" (by decide) he)
  have hne3 : escapeOnce s.data ≠ "false".data := fun he =>
    hf (escapeOnce_roundtrip_eq s "false" (by decide) he)
  rw [classifyText, if_neg hne1, if_neg hne2, if_neg hne3]
  rcases hsi : strToIntL? (escapeOnce s.data) with _ | m
  · rw [unescapeXMLL, unescapeAux_escapeOnce s.data _ le_rfl, mk_data]
  · exfalso
    have hchars := strToIntL?_chars _ _ hsi
    have hnoamp : ∀ c ∈ escapeOnce s.data, c ≠ '&' := by
      intro c hc
      rcases hchars c hc with hd | hd
      · exact isDigitCh_ne_amp c hd
      · subst hd; decide
    have hid : unescapeAux (escapeOnce s.data).length (escapeOnce s.data) =
        escapeOnce s.data := unescapeAux_no_amp _ _ hnoamp
    have h2 := unescapeAux_escapeOnce s.data (escapeOnce s.data).length le_rfl
    rw [hid] at h2
    rw [h2] at hsi
    rw [hsi] at hnum
    exact absurd hnum (by simp)

theorem escapeOnce_append_head (k : String) (w : List Char) (hk : keyOk k = true) :
    ∃ d ds, escapeOnce k.data ++ '>' :: w = d :: ds ∧ d ≠ '/' := by
  rcases hd : k.data with _ | ⟨c, cs⟩
  · exact ⟨'>', w, by simp [escapeOnce], by decide⟩
  · have hc : c ≠ '/' := by
      intro he
      rw [keyOk, hd, he] at hk
      simp at hk
    rw [escapeOnce, List.append_assoc]
    by_cases h1 : c = '&'
    · subst h1
      exact ⟨'&', 'a' :: 'm' :: 'p' :: ';' :: (escapeOnce cs ++ '>' :: w), rfl, by decide⟩
    · by_cases h2 : c = '<'
      · subst h2
        exact ⟨'&', 'l' :: 't' :: ';' :: (escapeOnce cs ++ '>' :: w), rfl, by decide⟩
      · by_cases h3 : c = '>'
        · subst h3
          exact ⟨'&', 'g' :: 't' :: ';' :: (escapeOnce cs ++ '>' :: w), rfl, by decide⟩
        · by_cases h4 : c = '"'
          · subst h4
            exact ⟨'&', 'q' :: 'u' :: 'o' :: 't' :: ';' :: (escapeOnce cs ++ '>' :: w),
              rfl, by decide⟩
          · by_cases h5 : c = aposCh
            · subst h5
              exact ⟨'&', '#' :: '3' :: '9' :: ';' :: (escapeOnce cs ++ '>' :: w),
                rfl, by decide⟩
            · exact ⟨c, escapeOnce cs ++ '>' :: w,
                by rw [escChar_default c h1 h2 h3 h4 h5]; rfl, hc⟩

theorem fuelV_pos (v : JSVal) : 1 ≤ fuelV v := by
  cases v <;> simp [fuelV]

theorem fuelItems_pos (es : List JSVal) : 1 ≤ fuelItems es := by
  cases es <;> simp [fuelItems] <;> omega

theorem fuelFields_pos (fs : List (String × JSVal)) : 1 ≤ fuelFields fs := by
  rcases fs with _ | ⟨⟨k, v⟩, fs⟩ <;> simp [fuelFields] <;> omega

theorem vCloseL_cons (x : List Char) : vCloseL ++ x = '<' :: ("/value>".data ++ x) := rfl

theorem oCloseL_cons (x : List Char) :
    oCloseL ++ x = '<' :: '/' :: ("object>".data ++ x) := rfl

theorem aCloseL_cons (x : List Char) :
    aCloseL ++ x = '<' :: '/' :: ("array>".data ++ x) := rfl

theorem dropPre_vTag_aTag (x : List Char) : dropPre vTagL (aTagL ++ x) = none := rfl

theorem dropPre_vTag_oTag (x : List Char) : dropPre vTagL (oTagL ++ x) = none := rfl

theorem dropPre_aTag_oTag (x : List Char) : dropPre aTagL (oTagL ++ x) = none := rfl

theorem dropPre_aClose_nl (x : List Char) : dropPre aCloseL ('\n' :: x) = none := rfl

theorem dropPre_oClose_nl (x : List Char) : dropPre oCloseL ('\n' :: x) = none := rfl

theorem dropPre_iTag_slash (z : List Char) : dropPre iTagL ('<' :: '/' :: z) = none := rfl

theorem skipWs_pipeline (ws : List Char) (n : Nat) (t x : List Char)
    (hws : ∀ c ∈ ws, isWsCh c = true) (hz : ∃ z, t = '<' :: z) :
    skipWs (ws ++ (spacesL n ++ (t ++ x))) = t ++ x := by
  obtain ⟨z, rfl⟩ := hz
  rw [skipWs_ws_append _ _ hws, skipWs_spacesL, List.cons_append, skipWs_lt]

theorem not_lt_mem_intToStr (n : Int) : '<' ∉ (intToStr n).data := by
  intro hm
  have h := strToInt?_intToStr n
  rw [strToInt?] at h
  rcases strToIntL?_chars _ _ h '<' hm with hd | hd
  · exact absurd hd (by decide)
  · exact absurd hd (by decide)

theorem not_quote_mem_natToStr (n : Nat) : '"' ∉ (natToStr n).data := by
  intro hm
  exact absurd (natToStr_digits n '"' hm) (by decide)

theorem not_lt_mem_escapeOnce (l : List Char) : '<' ∉ escapeOnce l := by
  intro hm
  exact absurd rfl (escapeOnce_no_angle l '<' hm).1

theorem not_gt_mem_escapeOnce (l : List Char) : '>' ∉ escapeOnce l := by
  intro hm
  exact absurd rfl (escapeOnce_no_angle l '>' hm).2.1

theorem unescape_escape_key (k : String) :
    String.mk (unescapeXMLL (escapeOnce k.data)) = k := by
  rw [unescapeXMLL, unescapeAux_escapeOnce _ _ le_rfl, mk_data]

/-- Joint parse-soundness statement for values, item lists and field lists,
proved by induction on fuel: the structural parser applied to the serialized
form of an unambiguous value (preceded by any formatting whitespace and
followed by arbitrary residual input) returns exactly that value and the
residual input. -/
theorem parse_sound : ∀ f : Nat,
    (∀ (v : JSVal) (ind : Nat) (ws rest : List Char), fuelV v ≤ f →
      (∀ c ∈ ws, isWsCh c = true) → unambiguous v = true →
      parseVal f (ws ++ ((jsonToXML v ind).data ++ rest)) = some (v, rest)) ∧
    (∀ (e : JSVal) (es : List JSVal) (idx ind : Nat) (ws tail : List Char),
      fuelItems (e :: es) ≤ f → (∀ c ∈ ws, isWsCh c = true) →
      unambiguousList (e :: es) = true → dropPre iTagL (skipWs tail) = none →
      parseItems f (ws ++ ((itemsToXML (e :: es) idx ind).data ++ tail)) =
        some (e :: es, tail)) ∧
    (∀ (k : String) (v : JSVal) (fs : List (String × JSVal)) (ind : Nat)
      (ws tail : List Char), fuelFields ((k, v) :: fs) ≤ f →
      (∀ c ∈ ws, isWsCh c = true) → unambiguousFields ((k, v) :: fs) = true →
      (∃ z, skipWs tail = '<' :: '/' :: z) →
      parseFields f (ws ++ ((fieldsToXML ((k, v) :: fs) ind).data ++ tail)) =
        some ((k, v) :: fs, tail)) := by
  intro f
  induction f with
  | zero =>
    refine ⟨fun v _ _ _ hf _ _ => absurd hf (by have := fuelV_pos v; omega),
      fun e es _ _ _ _ hf _ _ _ => absurd hf ?_,
      fun k v fs _ _ _ hf _ _ _ => absurd hf ?_⟩
    · have := fuelV_pos e
      simp only [fuelItems]
      omega
    · have := fuelV_pos v
      simp only [fuelFields]
      omega
  | succ f ih =>
    obtain ⟨ihV, ihI, ihF⟩ := ih
    refine ⟨?_, ?_, ?_⟩
    · -- parseVal
      intro v ind ws rest hf hws hun
      rcases v with _ | _ | b | n | s | es | fs
      · -- undef: excluded by unambiguity
        exact absurd hun (by simp [unambiguous])
      · -- null
        simp only [parseVal]
        rw [data_jsonToXML_null]
        simp only [List.append_assoc, List.cons_append, List.nil_append]
        rw [skipWs_pipeline ws ind vTagL _ hws ⟨"value>".data, rfl⟩]
        simp only [dropPre_append]
        rw [vCloseL_cons]
        simp only [splitAtCh_of_not_mem '<' "null".data _ (by decide)]
        rw [← vCloseL_cons]
        rfl
      · -- bool
        cases b
        · simp only [parseVal]
          rw [data_jsonToXML_boolFalse]
          simp only [List.append_assoc, List.cons_append, List.nil_append]
          rw [skipWs_pipeline ws ind vTagL _ hws ⟨"value>".data, rfl⟩]
          simp only [dropPre_append]
          rw [vCloseL_cons]
          simp only [splitAtCh_of_not_mem '<' "false".data _ (by decide)]
          rw [← vCloseL_cons]
          rfl
        · simp only [parseVal]
          rw [data_jsonToXML_boolTrue]
          simp only [List.append_assoc, List.cons_append, List.nil_append]
          rw [skipWs_pipeline ws ind vTagL _ hws ⟨"value>".data, rfl⟩]
          simp only [dropPre_append]
          rw [vCloseL_cons]
          simp only [splitAtCh_of_not_mem '<' "true".data _ (by decide)]
          rw [← vCloseL_cons]
          rfl
      · -- num
        simp only [parseVal]
        rw [data_jsonToXML_num]
        simp only [List.append_assoc, List.cons_append, List.nil_append]
        rw [skipWs_pipeline ws ind vTagL _ hws ⟨"value>".data, rfl⟩]
        simp only [dropPre_append]
        rw [vCloseL_cons]
        simp only [splitAtCh_of_not_mem '<' (intToStr n).data _ (not_lt_mem_intToStr n)]
        rw [← vCloseL_cons]
        simp only [dropPre_append, classifyText_intToStr]
      · -- str
        simp only [parseVal]
        rw [data_jsonToXML_str]
        simp only [List.append_assoc, List.cons_append, List.nil_append]
        rw [skipWs_pipeline ws ind vTagL _ hws ⟨"value>".data, rfl⟩]
        simp only [dropPre_append]
        rw [vCloseL_cons]
        simp only [splitAtCh_of_not_mem '<' (escapeOnce s.data) _
          (not_lt_mem_escapeOnce s.data)]
        rw [← vCloseL_cons]
        simp only [dropPre_append]
        rw [classifyText_escapeOnce s (by simpa [unambiguous] using hun)]
      · -- arr
        rcases es with _ | ⟨e, es⟩
        · simp only [parseVal]
          rw [data_jsonToXML_arrNil]
          simp only [List.append_assoc, List.cons_append, List.nil_append]
          rw [skipWs_pipeline ws ind aTagL _ hws ⟨"array>".data, rfl⟩]
          simp only [dropPre_vTag_aTag, dropPre_append]
        · simp only [parseVal]
          rw [data_jsonToXML_arrCons]
          simp only [List.append_assoc, List.cons_append, List.nil_append]
          rw [skipWs_pipeline ws ind aTagL _ hws ⟨"array>".data, rfl⟩]
          simp only [dropPre_vTag_aTag, dropPre_append, dropPre_aClose_nl]
          rw [show ('\n' :: ((itemsToXML (e :: es) 0 ind).data ++
            ('\n' :: (spacesL ind ++ (aCloseL ++ rest))))) =
            ['\n'] ++ ((itemsToXML (e :: es) 0 ind).data ++
              ('\n' :: (spacesL ind ++ (aCloseL ++ rest)))) from rfl]
          rw [ihI e es 0 ind ['\n'] ('\n' :: (spacesL ind ++ (aCloseL ++ rest)))
            (by simp only [fuelV] at hf; omega) (by intro c hc; fin_cases hc; decide)
            (by simpa [unambiguous] using hun)
            (by
              rw [skipWs_nl, skipWs_spacesL, aCloseL_cons, skipWs_lt]
              exact dropPre_iTag_slash _)]
          simp only []
          rw [skipWs_nl, skipWs_spacesL, aCloseL_cons, skipWs_lt, ← aCloseL_cons]
          simp only [dropPre_append]
      · -- obj
        rcases fs with _ | ⟨⟨k, v⟩, fs⟩
        · simp only [parseVal]
          rw [data_jsonToXML_objNil]
          simp only [List.append_assoc, List.cons_append, List.nil_append]
          rw [skipWs_pipeline ws ind oTagL _ hws ⟨"object>".data, rfl⟩]
          simp only [dropPre_vTag_oTag, dropPre_aTag_oTag, dropPre_append]
        · simp only [parseVal]
          rw [data_jsonToXML_objCons]
          simp only [List.append_assoc, List.cons_append, List.nil_append]
          rw [skipWs_pipeline ws ind oTagL _ hws ⟨"object>".data, rfl⟩]
          simp only [dropPre_vTag_oTag, dropPre_aTag_oTag, dropPre_append,
            dropPre_oClose_nl]
          rw [show ('\n' :: ((fieldsToXML ((k, v) :: fs) ind).data ++
            ('\n' :: (spacesL ind ++ (oCloseL ++ rest))))) =
            ['\n'] ++ ((fieldsToXML ((k, v) :: fs) ind).data ++
              ('\n' :: (spacesL ind ++ (oCloseL ++ rest)))) from rfl]
          rw [ihF k v fs ind ['\n'] ('\n' :: (spacesL ind ++ (oCloseL ++ rest)))
            (by simp only [fuelV] at hf; omega) (by intro c hc; fin_cases hc; decide)
            (by simpa [unambiguous] using hun)
            ⟨"object>".data ++ rest, by rw [skipWs_nl, skipWs_spacesL, oCloseL_cons,
              skipWs_lt]⟩]
          simp only []
          rw [skipWs_nl, skipWs_spacesL, oCloseL_cons, skipWs_lt, ← oCloseL_cons]
          simp only [dropPre_append]
    · -- parseItems
      intro e es idx ind ws tail hf hws hun htail
      have hone : ∀ tailPart : List Char,
          parseItems (f + 1) (ws ++ ((itemToXML e idx ind).data ++ tailPart)) =
            match parseItems f tailPart with
            | some (es2, r5) => some (e :: es2, r5)
            | none => none := by
        intro tailPart
        simp only [parseItems]
        rw [data_itemToXML]
        simp only [List.append_assoc, List.cons_append, List.nil_append]
        rw [skipWs_ws_append _ _ hws, skipWs_spacesL,
          skipWs_ws_cons _ _ (by decide), skipWs_ws_cons _ _ (by decide),
          show (iTagL ++ ((natToStr idx).data ++ ('"' :: '>' :: '\n' ::
            ((jsonToXML e (ind + 2)).data ++ ('\n' :: (spacesL ind ++
              (' ' :: ' ' :: (iCloseL ++ tailPart)))))))) =
            '<' :: ("item index=\"".data ++ ((natToStr idx).data ++
              ('"' :: '>' :: '\n' :: ((jsonToXML e (ind + 2)).data ++
                ('\n' :: (spacesL ind ++ (' ' :: ' ' :: (iCloseL ++ tailPart))))))))
            from rfl, skipWs_lt,
          show ('<' : Char) :: ("item index=\"".data ++ ((natToStr idx).data ++
              ('"' :: '>' :: '\n' :: ((jsonToXML e (ind + 2)).data ++
                ('\n' :: (spacesL ind ++ (' ' :: ' ' :: (iCloseL ++ tailPart)))))))) =
            iTagL ++ ((natToStr idx).data ++ ('"' :: '>' :: '\n' ::
              ((jsonToXML e (ind + 2)).data ++ ('\n' :: (spacesL ind ++
                (' ' :: ' ' :: (iCloseL ++ tailPart))))))) from rfl]
        simp only [dropPre_append]
        simp only [splitConsumeCh_of_not_mem '"' (natToStr idx).data _
          (not_quote_mem_natToStr idx)]
        rw [show ('>' :: '\n' :: ((jsonToXML e (ind + 2)).data ++
            ('\n' :: (spacesL ind ++ (' ' :: ' ' :: (iCloseL ++ tailPart)))))) =
          ['>'] ++ ('\n' :: ((jsonToXML e (ind + 2)).data ++
            ('\n' :: (spacesL ind ++ (' ' :: ' ' :: (iCloseL ++ tailPart))))))
          from rfl]
        simp only [dropPre_append]
        rw [show ('\n' :: ((jsonToXML e (ind + 2)).data ++
            ('\n' :: (spacesL ind ++ (' ' :: ' ' :: (iCloseL ++ tailPart)))))) =
          ['\n'] ++ ((jsonToXML e (ind + 2)).data ++
            ('\n' :: (spacesL ind ++ (' ' :: ' ' :: (iCloseL ++ tailPart)))))
          from rfl]
        rw [ihV e (ind + 2) ['\n']
          ('\n' :: (spacesL ind ++ (' ' :: ' ' :: (iCloseL ++ tailPart))))
          (by simp only [fuelItems] at hf; omega)
          (by intro c hc; fin_cases hc; decide)
          (by simp only [unambiguousList, Bool.and_eq_true] at hun; exact hun.1)]
        simp only []
        rw [skipWs_nl, skipWs_spacesL, skipWs_ws_cons _ _ (by decide),
          skipWs_ws_cons _ _ (by decide),
          show iCloseL ++ tailPart = '<' :: ("/item>".data ++ tailPart) from rfl,
          skipWs_lt,
          show ('<' : Char) :: ("/item>".data ++ tailPart) = iCloseL ++ tailPart
            from rfl]
        simp only [dropPre_append]
      rcases es with _ | ⟨e2, es⟩
      · rw [data_itemsToXML_single, hone tail,
          parseItems_stop f tail htail
            (by have := fuelV_pos e; simp only [fuelItems] at hf; omega)]
      · rw [data_itemsToXML_cons]
        simp only [List.append_assoc, List.cons_append, List.nil_append]
        rw [show ((itemToXML e idx ind).data ++ ('\n' ::
            ((itemsToXML (e2 :: es) (idx + 1) ind).data ++ tail))) =
          ((itemToXML e idx ind).data ++ (['\n'] ++
            ((itemsToXML (e2 :: es) (idx + 1) ind).data ++ tail))) from rfl]
        rw [hone (['\n'] ++ ((itemsToXML (e2 :: es) (idx + 1) ind).data ++ tail))]
        rw [ihI e2 es (idx + 1) ind ['\n'] tail
          (by have := fuelV_pos e; simp only [fuelItems] at hf ⊢; omega)
          (by intro c hc; fin_cases hc; decide)
          (by simp only [unambiguousList, Bool.and_eq_true] at hun ⊢
              exact hun.2) htail]
    · -- parseFields
      intro k v fs ind ws tail hf hws hun htail
      have hkOk : keyOk k = true := by
        simp only [unambiguousFields, Bool.and_eq_true] at hun
        exact hun.1.1
      have hone : ∀ tailPart : List Char,
          parseFields (f + 1) (ws ++ ((fieldToXML k v ind).data ++ tailPart)) =
            match parseFields f tailPart with
            | some (fs2, r4) => some ((k, v) :: fs2, r4)
            | none => none := by
        intro tailPart
        obtain ⟨d, ds, hdds, hdne⟩ := escapeOnce_append_head k
          ('\n' :: ((jsonToXML v (ind + 2)).data ++ ('\n' :: (spacesL ind ++
            (' ' :: ' ' :: '<' :: '/' :: (escapeOnce k.data ++ ('>' :: tailPart)))))))
          hkOk
        simp only [parseFields]
        rw [data_fieldToXML]
        simp only [List.append_assoc, List.cons_append, List.nil_append]
        rw [skipWs_ws_append _ _ hws, skipWs_spacesL,
          skipWs_ws_cons _ _ (by decide), skipWs_ws_cons _ _ (by decide), skipWs_lt]
        rw [hdds]
        simp only [if_neg hdne]
        rw [← hdds]
        simp only [splitConsumeCh_of_not_mem '>' (escapeOnce k.data) _
          (not_gt_mem_escapeOnce k.data)]
        rw [show ('\n' :: ((jsonToXML v (ind + 2)).data ++ ('\n' :: (spacesL ind ++
            (' ' :: ' ' :: '<' :: '/' :: (escapeOnce k.data ++ ('>' :: tailPart))))))) =
          ['\n'] ++ ((jsonToXML v (ind + 2)).data ++ ('\n' :: (spacesL ind ++
            (' ' :: ' ' :: '<' :: '/' :: (escapeOnce k.data ++ ('>' :: tailPart))))))
          from rfl]
        rw [ihV v (ind + 2) ['\n']
          ('\n' :: (spacesL ind ++ (' ' :: ' ' :: '<' :: '/' ::
            (escapeOnce k.data ++ ('>' :: tailPart)))))
          (by simp only [fuelFields] at hf; omega)
          (by intro c hc; fin_cases hc; decide)
          (by simp only [unambiguousFields, Bool.and_eq_true] at hun
              exact hun.1.2)]
        simp only []
        rw [skipWs_nl, skipWs_spacesL, skipWs_ws_cons _ _ (by decide),
          skipWs_ws_cons _ _ (by decide), skipWs_lt]
        rw [show ('<' :: '/' :: (escapeOnce k.data ++ ('>' :: tailPart))) =
          (('<' :: '/' :: (escapeOnce k.data ++ ['>'])) ++ tailPart) by simp]
        rw [show ('<' :: '/' :: (escapeOnce k.data ++ ['>'])) =
          fieldCloseL (escapeOnce k.data) from rfl]
        simp only [dropPre_append]
        rw [unescape_escape_key]
      rcases fs with _ | ⟨⟨k2, v2⟩, fs⟩
      · rw [data_fieldsToXML_single, hone tail]
        obtain ⟨z, hz⟩ := htail
        rw [parseFields_stop f tail z hz
          (by have := fuelV_pos v; simp only [fuelFields] at hf; omega)]
      · rw [data_fieldsToXML_cons]
        simp only [List.append_assoc, List.cons_append, List.nil_append]
        rw [show ((fieldToXML k v ind).data ++ ('\n' ::
            ((fieldsToXML ((k2, v2) :: fs) ind).data ++ tail))) =
          ((fieldToXML k v ind).data ++ (['\n'] ++
            ((fieldsToXML ((k2, v2) :: fs) ind).data ++ tail))) from rfl]
        rw [hone (['\n'] ++ ((fieldsToXML ((k2, v2) :: fs) ind).data ++ tail))]
        rw [ihF k2 v2 fs ind ['\n'] tail
          (by have := fuelV_pos v; simp only [fuelFields] at hf ⊢; omega)
          (by intro c hc; fin_cases hc; decide)
          (by simp only [unambiguousFields, Bool.and_eq_true] at hun ⊢
              exact hun.2) htail]

mutual
/-- Structural induction principle for the nested inductive `JSVal`. -/
def jsvalRec (P : JSVal → Prop) (h1 : P .undef) (h2 : P .null)
    (h3 : ∀ b, P (.bool b)) (h4 : ∀ n, P (.num n)) (h5 : ∀ s, P (.str s))
    (h6 : ∀ es, (∀ e ∈ es, P e) → P (.arr es))
    (h7 : ∀ fs, (∀ kv ∈ fs, P kv.2) → P (.obj fs)) : ∀ v, P v
  | .undef => h1
  | .null => h2
  | .bool b => h3 b
  | .num n => h4 n
  | .str s => h5 s
  | .arr es => h6 es (jsvalRecList P h1 h2 h3 h4 h5 h6 h7 es)
  | .obj fs => h7 fs (jsvalRecFields P h1 h2 h3 h4 h5 h6 h7 fs)

def jsvalRecList (P : JSVal → Prop) (h1 : P .undef) (h2 : P .null)
    (h3 : ∀ b, P (.bool b)) (h4 : ∀ n, P (.num n)) (h5 : ∀ s, P (.str s))
    (h6 : ∀ es, (∀ e ∈ es, P e) → P (.arr es))
    (h7 : ∀ fs, (∀ kv ∈ fs, P kv.2) → P (.obj fs)) :
    ∀ es : List JSVal, ∀ e ∈ es, P e
  | [], e, he => absurd he (List.not_mem_nil e)
  | x :: xs, e, he =>
    (List.mem_cons.mp he).elim
      (fun h => (congrArg P h).mpr (jsvalRec P h1 h2 h3 h4 h5 h6 h7 x))
      (fun h => jsvalRecList P h1 h2 h3 h4 h5 h6 h7 xs e h)

def jsvalRecFields (P : JSVal → Prop) (h1 : P .undef) (h2 : P .null)
    (h3 : ∀ b, P (.bool b)) (h4 : ∀ n, P (.num n)) (h5 : ∀ s, P (.str s))
    (h6 : ∀ es, (∀ e ∈ es, P e) → P (.arr es))
    (h7 : ∀ fs, (∀ kv ∈ fs, P kv.2) → P (.obj fs)) :
    ∀ fs : List (String × JSVal), ∀ kv ∈ fs, P kv.2
  | [], kv, he => absurd he (List.not_mem_nil kv)
  | x :: xs, kv, he =>
    (List.mem_cons.mp he).elim
      (fun h => (congrArg (fun p => P p.2) h).mpr
        (jsvalRec P h1 h2 h3 h4 h5 h6 h7 x.2))
      (fun h => jsvalRecFields P h1 h2 h3 h4 h5 h6 h7 xs kv h)
end

theorem lenItems_bound : ∀ (es : List JSVal) (idx ind : Nat),
    (∀ e ∈ es, ∀ i, fuelV e ≤ (jsonToXML e i).data.length) →
    fuelItems es ≤ (itemsToXML es idx ind).data.length + 1 := by
  intro es
  induction es with
  | nil => intro idx ind _; simp [fuelItems, itemsToXML]
  | cons e es ih =>
    intro idx ind h
    have he : fuelV e ≤ (jsonToXML e (ind + 2)).data.length := h e (.head _) (ind + 2)
    have hitem : (itemToXML e idx ind).data.length =
        ind + 2 + 13 + (natToStr idx).data.length + 3 +
          (jsonToXML e (ind + 2)).data.length + (1 + ind + 2 + 7) := by
      rw [data_itemToXML]
      simp [iTagL, iCloseL, spacesL]
      omega
    rcases es with _ | ⟨e2, es⟩
    · rw [data_itemsToXML_single]
      simp only [fuelItems]
      omega
    · rw [data_itemsToXML_cons]
      have := ih (idx + 1) ind (fun x hx => h x (.tail _ hx))
      simp only [fuelItems] at this ⊢
      simp only [List.length_append, List.length_cons]
      omega

theorem lenFields_bound : ∀ (fs : List (String × JSVal)) (ind : Nat),
    (∀ kv ∈ fs, ∀ i, fuelV kv.2 ≤ (jsonToXML kv.2 i).data.length) →
    fuelFields fs ≤ (fieldsToXML fs ind).data.length + 1 := by
  intro fs
  induction fs with
  | nil => intro ind _; simp [fuelFields, fieldsToXML]
  | cons kv fs ih =>
    intro ind h
    obtain ⟨k, v⟩ := kv
    have he : fuelV v ≤ (jsonToXML v (ind + 2)).data.length :=
      h (k, v) (.head _) (ind + 2)
    have hfield : (fieldToXML k v ind).data.length =
        ind + 3 + (escapeOnce k.data).length + 2 +
          (jsonToXML v (ind + 2)).data.length +
          (1 + ind + 4 + (escapeOnce k.data).length + 1) := by
      rw [data_fieldToXML]
      simp [spacesL]
      omega
    rcases fs with _ | ⟨kv2, fs⟩
    · rw [data_fieldsToXML_single]
      simp only [fuelFields]
      omega
    · obtain ⟨k2, v2⟩ := kv2
      rw [data_fieldsToXML_cons]
      have := ih ind (fun x hx => h x (.tail _ hx))
      simp only [fuelFields] at this ⊢
      simp only [List.length_append, List.length_cons]
      omega

theorem fuelV_le_length (v : JSVal) : ∀ ind, fuelV v ≤ (jsonToXML v ind).data.length := by
  induction v using jsvalRec with
  | h1 => intro ind; rw [data_jsonToXML_undef]; simp [fuelV, spacesL]; omega
  | h2 => intro ind; rw [data_jsonToXML_null]; simp [fuelV, spacesL]; omega
  | h3 b =>
    intro ind
    cases b
    · rw [data_jsonToXML_boolFalse]; simp [fuelV, spacesL]; omega
    · rw [data_jsonToXML_boolTrue]; simp [fuelV, spacesL]; omega
  | h4 n =>
    intro ind
    rw [data_jsonToXML_num]
    simp [fuelV, spacesL, vTagL, vCloseL]
    omega
  | h5 s =>
    intro ind
    rw [data_jsonToXML_str]
    simp [fuelV, spacesL, vTagL, vCloseL]
    omega
  | h6 es ih =>
    intro ind
    rcases es with _ | ⟨e, es⟩
    · rw [data_jsonToXML_arrNil]
      simp [fuelV, fuelItems, spacesL, aTagL, aCloseL]
    · rw [data_jsonToXML_arrCons]
      have := lenItems_bound (e :: es) 0 ind ih
      simp only [fuelV]
      simp only [List.length_append, List.length_cons]
      omega
  | h7 fs ih =>
    intro ind
    rcases fs with _ | ⟨⟨k, v⟩, fs⟩
    · rw [data_jsonToXML_objNil]
      simp [fuelV, fuelFields, spacesL, oTagL, oCloseL]
    · rw [data_jsonToXML_objCons]
      have := lenFields_bound ((k, v) :: fs) ind ih
      simp only [fuelV]
      simp only [List.length_append, List.length_cons]
      omega

/-- Top-level round trip: the structural parse of the serialization of an
unambiguous value recovers the value exactly. -/
theorem parseJsonXML_jsonToXML (v : JSVal) (ind : Nat) (h : unambiguous v = true) :
    parseJsonXML (jsonToXML v ind) = some v := by
  rw [parseJsonXML]
  have hb : fuelV v ≤ (jsonToXML v ind).data.length + 1 := by
    have := fuelV_le_length v ind
    omega
  have hp := (parse_sound ((jsonToXML v ind).data.length + 1)).1 v ind [] []
    hb (by intro c hc; simp at hc) h
  simp only [List.nil_append, List.append_nil] at hp
  rw [hp]
  rfl

/-- Claim C3 counterexample: `jsonToXML` serializes the null value and the
string "null" (and likewise the number 5 and the string "5") to the very
same XML text, so no structural parse of its output can distinguish them;
the claimed round trip fails as stated. -/
theorem jsonToXML_not_injective :
    jsonToXML JSVal.null 2 = jsonToXML (JSVal.str "null") 2 ∧
    jsonToXML (JSVal.num 5) 2 = jsonToXML (JSVal.str "5") 2 ∧
    JSVal.null ≠ JSVal.str "null" ∧ JSVal.num 5 ≠ JSVal.str "5" := by
  refine ⟨?_, ?_, fun h => JSVal.noConfusion h, fun h => JSVal.noConfusion h⟩
  · simp only [jsonToXML]
    rfl
  · simp only [jsonToXML]
    rfl

/-- Claim C3 (amended): for every finite acyclic JSON value whose string
leaves do not mimic the serialized form of null, a boolean or a number (and
whose object keys do not begin with a slash), structurally parsing the XML
produced by `jsonToXML` recovers the original shape and scalar values,
ignoring formatting whitespace.  The null value and the string "null" (and a
number and its decimal string) serialize identically and therefore cannot be
distinguished — the exclusion the counterexample forces. -/
theorem jsonToXML_roundtrip (v : JSVal) (h : unambiguous v = true) :
    parseJsonXML (jsonToXML v 2) = some v :=
  parseJsonXML_jsonToXML v 2 h

def sampleJson : JSVal :=
  .obj [("name", .str "Office Firewalla"), ("online", .bool true),
    ("count", .num 5), ("tags", .arr [.str "a&b", .null]),
    ("meta", .obj [])]

/-- Witness: the round-trip theorem applied to a concrete nested value. -/
theorem jsonToXML_roundtrip_witness :
    unambiguous sampleJson = true ∧
    parseJsonXML (jsonToXML sampleJson 2) = some sampleJson := by
  have h : unambiguous sampleJson = true := by
    simp only [sampleJson, unambiguous, unambiguousList, unambiguousFields]
    decide
  exact ⟨h, jsonToXML_roundtrip sampleJson h⟩

/-! ## Byte formatters

Embedding of `formatBytes` (src/src/index.ts lines 1125-1131) and
`FirewallaResponseFormatter.formatBytes` (lines 1223-1229, here
`formatBytesRich`).  `Math.floor(Math.log(bytes) / Math.log(1024))` is
modelled exactly as the floor base-1024 logarithm (`logIdx`), and
`parseFloat(x.toFixed(2))` as exact round-half-up to hundredths with
trailing zeros dropped (`magHund` / `renderMag`); byte counts are modelled
as exact naturals. -/

def logIdxF : Nat → Nat → Nat
  | 0, _ => 0
  | f + 1, n => if n < 1024 then 0 else logIdxF f (n / 1024) + 1

/-- Floor base-1024 logarithm. -/
def logIdx (n : Nat) : Nat := logIdxF n n

def sizeUnits : List String := ["B", "KB", "MB", "GB", "TB"]

/-- Unit chosen by the formatter; out-of-range indices interpolate the
JavaScript `undefined`. -/
def formatBytesUnit (b : Nat) : String := (sizeUnits.get? (logIdx b)).getD "undefined"

/-- Displayed magnitude in hundredths: `toFixed(2)` rounds
`100 * b / 1024 ^ logIdx b` to the nearest integer (half up). -/
def magHund (b : Nat) : Nat :=
  (200 * b + 1024 ^ logIdx b) / (2 * 1024 ^ logIdx b)

/-- Decimal rendering after `parseFloat` drops trailing zeros. -/
def renderMag (m : Nat) : String :=
  if m % 100 = 0 then natToStr (m / 100)
  else if m % 10 = 0 then natToStr (m / 100) ++ "." ++ natToStr (m / 10 % 10)
  else natToStr (m / 100) ++ "." ++ natToStr (m / 10 % 10) ++ natToStr (m % 10)

/-- Embedding of the plain `formatBytes`: absent or zero input prints "0B". -/
def formatBytes (b : Option Nat) : String :=
  match b with
  | none => "0B"
  | some 0 => "0B"
  | some n => renderMag (magHund n) ++ formatBytesUnit n

/-- Embedding of `FirewallaResponseFormatter.formatBytes`: identical logic,
space-separated convention "0 B". -/
def formatBytesRich (b : Option Nat) : String :=
  match b with
  | none => "0 B"
  | some 0 => "0 B"
  | some n => renderMag (magHund n) ++ " " ++ formatBytesUnit n

theorem logIdxF_bounds :
    ∀ f n, 1 ≤ n → n ≤ f → 1024 ^ logIdxF f n ≤ n ∧ n < 1024 ^ (logIdxF f n + 1) := by
  intro f
  induction f with
  | zero => intro n h1 h2; omega
  | succ f ih =>
    intro n h1 h2
    by_cases hlt : n < 1024
    · simp only [logIdxF, if_pos hlt]
      constructor
      · simpa using h1
      · simpa using hlt
    · simp only [logIdxF, if_neg hlt]
      have hq1 : 1 ≤ n / 1024 := Nat.one_le_div_iff (by omega) |>.mpr (by omega)
      have hqf : n / 1024 ≤ f := by
        have := Nat.div_lt_self (by omega : 0 < n) (by omega : 1 < 1024)
        omega
      obtain ⟨hlo, hhi⟩ := ih (n / 1024) hq1 hqf
      constructor
      · calc 1024 ^ (logIdxF f (n / 1024) + 1) =
              1024 ^ logIdxF f (n / 1024) * 1024 := by rw [Nat.pow_succ]
          _ ≤ n / 1024 * 1024 := Nat.mul_le_mul_right _ hlo
          _ ≤ n := by
              have := Nat.div_add_mod n 1024
              have := Nat.mod_lt n (show 0 < 1024 by omega)
              omega
      · have hstep : n < (n / 1024 + 1) * 1024 := by
          have := Nat.div_add_mod n 1024
          have := Nat.mod_lt n (show 0 < 1024 by omega)
          omega
        calc n < (n / 1024 + 1) * 1024 := hstep
          _ ≤ 1024 ^ (logIdxF f (n / 1024) + 1) * 1024 :=
              Nat.mul_le_mul_right _ (by omega)
          _ = 1024 ^ (logIdxF f (n / 1024) + 1 + 1) := by ring

theorem logIdx_bounds (n : Nat) (h : 1 ≤ n) :
    1024 ^ logIdx n ≤ n ∧ n < 1024 ^ (logIdx n + 1) :=
  logIdxF_bounds n n h le_rfl

theorem logIdx_eq_zero_iff (n : Nat) (h : 1 ≤ n) : logIdx n = 0 ↔ n < 1024 := by
  constructor
  · intro h0
    have := (logIdx_bounds n h).2
    rw [h0] at this
    simpa using this
  · intro hlt
    cases n with
    | zero => rfl
    | succ m =>
      rw [logIdx, logIdxF, if_pos hlt]

/-- Claim C7 (amended): the unit is `B` exactly when the byte count is below
1024; absent or zero input prints "0B" (plain) and "0 B" (rich); and for
every positive byte count the displayed magnitude lies in the closed
interval [1, 1024] — in hundredths, [100, 102400].  The upper endpoint 1024
is attainable: rounding at unit boundaries can display exactly 1024 (see the
counterexample), which is the one change the code forces in the claimed
half-open interval [1, 1024). -/
theorem formatBytes_spec (b : Nat) (hb : 0 < b) :
    (formatBytesUnit b = "B" ↔ b < 1024) ∧
    100 ≤ magHund b ∧ magHund b ≤ 102400 ∧
    formatBytes (some b) = renderMag (magHund b) ++ formatBytesUnit b ∧
    formatBytes none = "0B" ∧ formatBytes (some 0) = "0B" ∧
    formatBytesRich none = "0 B" ∧ formatBytesRich (some 0) = "0 B" := by
  obtain ⟨hlo, hhi⟩ := logIdx_bounds b hb
  have hP : 0 < 1024 ^ logIdx b := Nat.pos_pow_of_pos _ (by omega)
  refine ⟨?_, ?_, ?_, ?_, rfl, rfl, rfl, rfl⟩
  · constructor
    · intro hu
      by_contra hge
      have h0 : logIdx b ≠ 0 := by
        intro h0
        exact hge ((logIdx_eq_zero_iff b hb).mp h0)
      rcases hi : logIdx b with _ | _ | _ | _ | _ | j
      · exact h0 hi
      · rw [formatBytesUnit, hi] at hu; exact absurd hu (by decide)
      · rw [formatBytesUnit, hi] at hu; exact absurd hu (by decide)
      · rw [formatBytesUnit, hi] at hu; exact absurd hu (by decide)
      · rw [formatBytesUnit, hi] at hu; exact absurd hu (by decide)
      · rw [formatBytesUnit, hi] at hu
        rw [List.get?_eq_none.mpr (by simp [sizeUnits])] at hu
        exact absurd hu (by decide)
    · intro hlt
      rw [formatBytesUnit, (logIdx_eq_zero_iff b hb).mpr hlt]
      rfl
  · rw [magHund, Nat.le_div_iff_mul_le (by omega)]
    calc 100 * (2 * 1024 ^ logIdx b) = 200 * 1024 ^ logIdx b := by ring
      _ ≤ 200 * b := Nat.mul_le_mul_left _ hlo
      _ ≤ 200 * b + 1024 ^ logIdx b := by omega
  · rw [magHund]
    have h2P : 0 < 2 * 1024 ^ logIdx b := by omega
    rw [Nat.div_le_iff_le_mul_add_pred h2P]
    have hup : b < 1024 * 1024 ^ logIdx b := by
      have h5 := hhi
      rw [Nat.pow_succ] at h5
      omega
    omega
  · cases b with
    | zero => omega
    | succ m => rfl

/-- Claim C7 counterexample: at 1048575 bytes (one below 1 MiB) the code
displays "1024KB" — the magnitude is exactly 1024, outside the claimed
half-open interval [1, 1024). -/
theorem formatBytes_boundary :
    formatBytes (some 1048575) = "1024KB" ∧ magHund 1048575 = 102400 ∧
    ¬(magHund 1048575 < 102400) := by
  refine ⟨?_, by decide, by decide⟩
  decide

/-- Witness: the amended claim applied at the boundary input 1048575. -/
theorem formatBytes_spec_witness :
    (0 : Nat) < 1048575 ∧
    ((formatBytesUnit 1048575 = "B" ↔ 1048575 < 1024) ∧
      100 ≤ magHund 1048575 ∧ magHund 1048575 ≤ 102400 ∧
      formatBytes (some 1048575) = renderMag (magHund 1048575) ++
        formatBytesUnit 1048575 ∧
      formatBytes none = "0B" ∧ formatBytes (some 0) = "0B" ∧
      formatBytesRich none = "0 B" ∧ formatBytesRich (some 0) = "0 B") :=
  ⟨by decide, formatBytes_spec 1048575 (by decide)⟩

/-! ## Markdown renderers

Embeddings of `FirewallaResponseFormatter.formatListDevices` (src/src/index.ts
lines 1869-1965) and `formatListAlarms` (lines 1967-2041).  The impure
`new Date().toLocaleString()` is the parameter `now`, and the
locale-dependent `formatDate` is the parameter `fmtDate`.  JavaScript record
objects used as counters (`typeCount`, `severityCount`, ...) are modelled as
insertion-ordered association lists.  Paths on which the original JavaScript
would throw (calling array methods on a non-array truthy `results`, or
`toUpperCase` on a non-string severity) are not exercised by any analysed
claim; the embedding totalizes them through `jsElems` and string coercion. -/

def jsGT0 : JSVal → Bool
  | .num n => decide (0 < n)
  | _ => false

def jsLE (v : JSVal) (k : Int) : Bool :=
  match v with
  | .num n => decide (n ≤ k)
  | _ => false

def jsElems : JSVal → List JSVal
  | .arr xs => xs
  | _ => []

/-- One step of `record[key] = (record[key] || 0) + 1` preserving insertion
order. -/
def bumpCount (key : String) : List (String × Nat) → List (String × Nat)
  | [] => [(key, 1)]
  | (k, n) :: rest => if k = key then (k, n + 1) :: rest else (k, n) :: bumpCount key rest

/-- Stable descending sort by count, modelling `.sort((a, b) => b[1] - a[1])`. -/
def insertDesc (p : String × Nat) : List (String × Nat) → List (String × Nat)
  | [] => [p]
  | q :: qs => if q.2 ≤ p.2 then p :: q :: qs else q :: insertDesc p qs

def sortDesc : List (String × Nat) → List (String × Nat)
  | [] => []
  | p :: ps => insertDesc p (sortDesc ps)

def getSeverityEmoji (severity : String) : String :=
  if severity.toUpper = "HIGH" then "üî¥"
  else if severity.toUpper = "MEDIUM" then "üü°"
  else if severity.toUpper = "LOW" then "üü¢"
  else "‚ö™"

def getDeviceTypeEmoji (t : String) : String :=
  if t = "desktop" then "üíª"
  else if t = "phone" then "üì±"
  else if t = "tablet" then "üì±"
  else if t = "tv" then "üì∫"
  else if t = "printer" then "üñ®Ô∏è"
  else if t = "camera" then "üì∑"
  else if t = "router" then "üîß"
  else if t = "ap" then "üì°"
  else if t = "switch" then "üîå"
  else if t = "nas&server" then "üñ•Ô∏è"
  else if t = "security" then "üîí"
  else if t = "automation" then "üè†"
  else if t = "smart speaker" then "üîä"
  else if t = "appliance" then "üîå"
  else "üìü"

def deviceRowActive (fmtDate : JSVal → String) (d : JSVal) : String :=
  let name := toTmpl (jsOr (getF d "name") (.str "Unknown"))
  let ip := toTmpl (jsOr (jsOr (getF d "ip") (getF d "ipAddress")) (.str "N/A"))
  let mac := toTmpl (jsOr (getF d "mac") (.str "N/A"))
  let ty := toTmpl (jsOr (jsOr (getF d "type") (getF d "deviceType")) (.str "unknown"))
  let typeEmoji := getDeviceTypeEmoji ty
  let network := toTmpl (jsOr (getF (getF d "network") "name") (.str "Unknown"))
  let lastSeen :=
    if truthy (jsOr (getF d "lastActiveTime") (getF d "lastSeen")) then
      fmtDate (jsOr (getF d "lastActiveTime") (getF d "lastSeen"))
    else "Active"
  "| " ++ typeEmoji ++ " **" ++ name ++ "** | `" ++ ip ++ "` | `" ++ mac ++ "` | " ++
    ty ++ " | " ++ network ++ " | " ++ lastSeen ++ " |\n"

def deviceRowOffline (fmtDate : JSVal → String) (d : JSVal) : String :=
  let name := toTmpl (jsOr (getF d "name") (.str "Unknown"))
  let ip := toTmpl (jsOr (jsOr (getF d "ip") (getF d "ipAddress")) (.str "N/A"))
  let mac := toTmpl (jsOr (getF d "mac") (.str "N/A"))
  let ty := toTmpl (jsOr (jsOr (getF d "type") (getF d "deviceType")) (.str "unknown"))
  let typeEmoji := getDeviceTypeEmoji ty
  let lastSeen :=
    if truthy (jsOr (getF d "lastActiveTime") (getF d "lastSeen")) then
      fmtDate (jsOr (getF d "lastActiveTime") (getF d "lastSeen"))
    else "N/A"
  "| " ++ typeEmoji ++ " **" ++ name ++ "** | `" ++ ip ++ "` | `" ++ mac ++ "` | " ++
    ty ++ " | " ++ lastSeen ++ " |\n"

def formatListDevices (now : String) (fmtDate : JSVal → String)
    (data : JSVal) (metadata : JSVal) : String :=
  let devices := jsOr (jsOr (getF data "results") data) (.arr [])
  let header :=
    "# Network Device Inventory\n" ++ "*Generated: " ++ now ++ "*\n\n" ++
    "## üìä Device Summary\n" ++
    "- **Total Devices**: " ++ toTmpl (getF devices "length") ++ "\n"
  let body :=
    if jsGT0 (getF devices "length") then
      let xs := jsElems devices
      let onlineDevices := xs.filter (fun d => truthy (getF d "online"))
      let offlineDevices := xs.filter (fun d => !truthy (getF d "online"))
      let onlineCount := onlineDevices.length
      let offlineCount := xs.length - onlineCount
      let typeCount := xs.foldl (fun acc d =>
        bumpCount (toTmpl (jsOr (jsOr (getF d "type") (getF d "deviceType"))
          (.str "unknown"))) acc) []
      let networkCount := xs.foldl (fun acc d =>
        bumpCount (toTmpl (jsOr (getF (getF d "network") "name")
          (.str "Unknown Network"))) acc) []
      "- **Online**: " ++ natToStr onlineCount ++ " | **Offline**: " ++
        natToStr offlineCount ++ "\n" ++
      "- **Device Types**: " ++
        joinSep ", " ((sortDesc typeCount).map
          (fun p => p.1 ++ " (" ++ natToStr p.2 ++ ")")) ++ "\n\n" ++
      "## üè† Network Distribution\n" ++
      String.join ((sortDesc networkCount).map
        (fun p => "- **" ++ p.1 ++ "**: " ++ natToStr p.2 ++ " devices\n")) ++ "\n" ++
      (if onlineDevices.length > 0 then
        "## üíª Active Devices\n\n" ++
        "| Name | IP Address | MAC Address | Type | Network | Last Active |\n" ++
        "|------|------------|-------------|------|---------|-------------|\n" ++
        String.join (onlineDevices.map (deviceRowActive fmtDate)) ++ "\n"
      else "") ++
      (if offlineDevices.length > 0 then
        "## üì¥ Offline Devices\n\n" ++
        "| Name | IP Address | MAC Address | Type | Last Seen |\n" ++
        "|------|------------|-------------|------|------------|\n" ++
        String.join (offlineDevices.map (deviceRowOffline fmtDate))
      else "")
    else
      "\n### ‚ÑπÔ∏è No devices found\n" ++ "No devices match your search criteria.\n"
  let cursorPart :=
    if truthy (getF data "next_cursor") then
      "\n## üìÑ Additional Results\n" ++
      "More results are available. Use cursor: `" ++
        toTmpl (getF data "next_cursor") ++ "` to fetch the next page.\n"
    else ""
  header ++ body ++ cursorPart

/-- Derived severity when the explicit field is falsy:
`alarm.type <= 2 ? HIGH : alarm.type <= 5 ? MEDIUM : LOW`. -/
def derivedSeverity (a : JSVal) : String :=
  if jsLE (getF a "type") 2 then "HIGH"
  else if jsLE (getF a "type") 5 then "MEDIUM"
  else "LOW"

/-- The severity value used by the renderer: `alarm.severity || derived`. -/
def effSeverity (a : JSVal) : JSVal :=
  jsOr (getF a "severity") (.str (derivedSeverity a))

/-- One `severityCount[severity]++` step, restricted to the three printed
keys. -/
def sevStep (acc : Nat × Nat × Nat) (a : JSVal) : Nat × Nat × Nat :=
  let s := toTmpl (effSeverity a)
  if s = "HIGH" then (acc.1 + 1, acc.2.1, acc.2.2)
  else if s = "MEDIUM" then (acc.1, acc.2.1 + 1, acc.2.2)
  else if s = "LOW" then (acc.1, acc.2.1, acc.2.2 + 1)
  else acc

/-- The `severityCount` record restricted to its three printed keys. -/
def severityFold (alarms : List JSVal) : Nat × Nat × Nat :=
  alarms.foldl sevStep (0, 0, 0)

/-- The `statusCount` record restricted to its three printed keys. -/
def statusFold (alarms : List JSVal) : Nat × Nat × Nat :=
  alarms.foldl (fun acc a =>
    let s := toTmpl (jsOr (getF a "status") (.str "active"))
    if s = "active" then (acc.1 + 1, acc.2.1, acc.2.2)
    else if s = "acknowledged" then (acc.1, acc.2.1 + 1, acc.2.2)
    else if s = "resolved" then (acc.1, acc.2.1, acc.2.2 + 1)
    else acc) (0, 0, 0)

def alarmTypeKey (a : JSVal) : String :=
  toTmpl (jsOr (getF a "alarmType") (.str ("Type " ++ toTmpl (getF a "type"))))

def jsBytes : JSVal → Option Nat
  | .num n => some n.toNat
  | _ => none

def alarmDetail (fmtDate : JSVal → String) (a : JSVal) (i : Nat) : String :=
  let severity := toTmpl (effSeverity a)
  let alarmTime := if truthy (getF a "ts") then fmtDate (getF a "ts") else "N/A"
  let deviceName := toTmpl (jsOr (getF (getF a "device") "name") (.str "Unknown Device"))
  let deviceIp := toTmpl (jsOr (jsOr (getF (getF a "device") "ip")
    (getF (getF a "device") "ipAddress")) (.str "N/A"))
  let remoteDomain := toTmpl (jsOr (jsOr (getF (getF a "remote") "domain")
    (getF (getF a "remote") "ip")) (.str "N/A"))
  let remoteCountry := toTmpl (jsOr (getF (getF a "remote") "country") (.str "Unknown"))
  let download := formatBytesRich (jsBytes (getF (getF a "transfer") "download"))
  let upload := formatBytesRich (jsBytes (getF (getF a "transfer") "upload"))
  let total := formatBytesRich (jsBytes (getF (getF a "transfer") "total"))
  let status := toTmpl (jsOr (getF a "status") (.str "active"))
  "### " ++ getSeverityEmoji severity ++ " Alarm #" ++ natToStr (i + 1) ++ " - " ++
    alarmTypeKey a ++ "\n" ++
  "- **Time**: " ++ alarmTime ++ "\n" ++
  "- **Severity**: " ++ severity ++ "\n" ++
  "- **Status**: " ++ status ++ "\n" ++
  "- **Device**: " ++ deviceName ++ " (IP: " ++ deviceIp ++ ")\n" ++
  "- **Remote**: " ++ remoteDomain ++ " (" ++ remoteCountry ++ ")\n" ++
  "- **Transfer**: ‚Üì " ++ download ++ " | ‚Üë " ++ upload ++ " | Total: " ++
    total ++ "\n" ++ "\n"

def alarmDetails (fmtDate : JSVal → String) : List JSVal → Nat → String
  | [], _ => ""
  | a :: rest, i => alarmDetail fmtDate a i ++ alarmDetails fmtDate rest (i + 1)

def formatListAlarms (now : String) (fmtDate : JSVal → String)
    (data : JSVal) (metadata : JSVal) : String :=
  let alarmsVal := jsOr (getF data "results") (.arr [])
  let header :=
    "# Firewalla Security Alarms Report\n" ++ "*Generated: " ++ now ++ "*\n\n" ++
    "## üìä Overview\n" ++
    "- **Total Alarms**: " ++ toTmpl (getF alarmsVal "length") ++ "\n" ++
    "- **Query**: " ++ toTmpl (jsOr (getF metadata "query") (.str "All alarms")) ++ "\n"
  let body :=
    if jsGT0 (getF alarmsVal "length") then
      let alarms := jsElems alarmsVal
      let sev := severityFold alarms
      let st := statusFold alarms
      let typeCount := alarms.foldl (fun acc a => bumpCount (alarmTypeKey a) acc) []
      "- **Severity Breakdown**: High (" ++ natToStr sev.1 ++ "), Medium (" ++
        natToStr sev.2.1 ++ "), Low (" ++ natToStr sev.2.2 ++ ")\n" ++
      ("- **Status**: Active (" ++ natToStr st.1 ++ "), Acknowledged (" ++
        natToStr st.2.1 ++ "), Resolved (" ++ natToStr st.2.2 ++ ")\n\n" ++
      "## üö® Alarms by Type\n" ++
      String.join (typeCount.map
        (fun p => "- **" ++ p.1 ++ "**: " ++ natToStr p.2 ++ " alarms\n")) ++ "\n" ++
      "## üìã Detailed Alarms\n\n" ++
      alarmDetails fmtDate alarms 0)
    else
      "\n### ‚ÑπÔ∏è No alarms found\n" ++ "No security alarms match your search criteria.\n"
  let cursorPart :=
    if truthy (getF data "next_cursor") then
      "\n## üìÑ Additional Results\n" ++
      "More results are available. Use cursor: `" ++
        toTmpl (getF data "next_cursor") ++ "` to fetch the next page.\n"
    else ""
  header ++ body ++ cursorPart

/-! ## Substring occurrence -/

def containsSubL (p : List Char) : List Char → Bool
  | [] => decide (p = [])
  | c :: t => p.isPrefixOf (c :: t) || containsSubL p t

/-- Occurrence of `p` as a contiguous substring of `s`. -/
def containsSub (p s : String) : Bool := containsSubL p.data s.data

theorem isPrefixOf_append_self (p b : List Char) : p.isPrefixOf (p ++ b) = true := by
  induction p with
  | nil => simp [List.isPrefixOf]
  | cons c cs ih => simp [List.isPrefixOf, ih]

theorem containsSubL_middle (p a b : List Char) :
    containsSubL p (a ++ (p ++ b)) = true := by
  induction a with
  | nil =>
    rw [List.nil_append]
    rcases p with _ | ⟨c, cs⟩
    · rcases b with _ | ⟨d, ds⟩
      · rfl
      · simp [containsSubL, List.isPrefixOf]
    · rw [List.cons_append, containsSubL]
      have h := isPrefixOf_append_self (c :: cs) b
      rw [List.cons_append] at h
      rw [h]
      simp
  | cons x xs ih =>
    rw [List.cons_append, containsSubL, ih]
    simp

/-- Concrete clock and date formatter used when a theorem evaluates a
renderer on a fully concrete input. -/
def nowSample : String := "1/1/2026, 12:00:00 AM"

def fmtDateSample : JSVal → String := fun _ => "Jan 1, 2026, 12:00:00 AM UTC"

/-- Claim C5 (code bug): on an object payload whose `results` field is
absent, `formatListDevices` falls back to the payload object itself
(`data.results || data || []`), so the rendered report shows
"- **Total Devices**: undefined" — it contains the literal substring
"undefined" and does not state a count of 0.  The repository's own test
(`should handle missing results array`) expects count 0 and no
"undefined"/"null" for exactly this input.  The payload `{results: null}`
fails the same way, while `formatListAlarms` (whose fallback is
`data.results || []`) and an empty-array payload to the devices renderer
behave as the claim states. -/
theorem formatListDevices_missing_results_bug :
    (containsSub "undefined"
        (formatListDevices nowSample fmtDateSample (.obj []) (.obj [])) = true ∧
      containsSub "- **Total Devices**: 0"
        (formatListDevices nowSample fmtDateSample (.obj []) (.obj [])) = false) ∧
    containsSub "undefined"
      (formatListDevices nowSample fmtDateSample (.obj [("results", .null)])
        (.obj [])) = true ∧
    (containsSub "- **Total Alarms**: 0"
        (formatListAlarms nowSample fmtDateSample (.obj []) (.obj [])) = true ∧
      containsSub "undefined"
        (formatListAlarms nowSample fmtDateSample (.obj []) (.obj [])) = false ∧
      containsSub "null"
        (formatListAlarms nowSample fmtDateSample (.obj []) (.obj [])) = false) ∧
    containsSub "- **Total Alarms**: 0"
      (formatListAlarms nowSample fmtDateSample (.obj [("results", .null)])
        (.obj [])) = true ∧
    (containsSub "- **Total Devices**: 0"
        (formatListDevices nowSample fmtDateSample (.arr []) (.obj [])) = true ∧
      containsSub "undefined"
        (formatListDevices nowSample fmtDateSample (.arr []) (.obj [])) = false) := by
  have h1 : formatListDevices nowSample fmtDateSample (.obj []) (.obj []) =
      "# Network Device Inventory\n*Generated: 1/1/2026, 12:00:00 AM*\n\n## üìä Device Summary\n- **Total Devices**: undefined\n\n### ‚ÑπÔ∏è No devices found\nNo devices match your search criteria.\n" := by
    simp [formatListDevices, getF, lookupField, jsOr, truthy, jsGT0, jsElems, toTmpl]
    rfl
  have h2 : formatListDevices nowSample fmtDateSample (.obj [("results", .null)])
      (.obj []) = "# Network Device Inventory\n*Generated: 1/1/2026, 12:00:00 AM*\n\n## üìä Device Summary\n- **Total Devices**: undefined\n\n### ‚ÑπÔ∏è No devices found\nNo devices match your search criteria.\n" := by
    simp [formatListDevices, getF, lookupField, jsOr, truthy, jsGT0, jsElems, toTmpl]
    rfl
  have h3 : formatListAlarms nowSample fmtDateSample (.obj []) (.obj []) =
      "# Firewalla Security Alarms Report\n*Generated: 1/1/2026, 12:00:00 AM*\n\n## üìä Overview\n- **Total Alarms**: 0\n- **Query**: All alarms\n\n### ‚ÑπÔ∏è No alarms found\nNo security alarms match your search criteria.\n" := by
    simp [formatListAlarms, getF, lookupField, jsOr, truthy, jsGT0, jsElems, toTmpl]
    rfl
  have h4 : formatListAlarms nowSample fmtDateSample (.obj [("results", .null)])
      (.obj []) = "# Firewalla Security Alarms Report\n*Generated: 1/1/2026, 12:00:00 AM*\n\n## üìä Overview\n- **Total Alarms**: 0\n- **Query**: All alarms\n\n### ‚ÑπÔ∏è No alarms found\nNo security alarms match your search criteria.\n" := by
    simp [formatListAlarms, getF, lookupField, jsOr, truthy, jsGT0, jsElems, toTmpl]
    rfl
  have h5 : formatListDevices nowSample fmtDateSample (.arr []) (.obj []) =
      "# Network Device Inventory\n*Generated: 1/1/2026, 12:00:00 AM*\n\n## üìä Device Summary\n- **Total Devices**: 0\n\n### ‚ÑπÔ∏è No devices found\nNo devices match your search criteria.\n" := by
    simp [formatListDevices, getF, lookupField, jsOr, truthy, jsGT0, jsElems, toTmpl]
    rfl
  rw [h1, h2, h3, h4, h5]
  decide

theorem severityFold_go (alarms : List JSVal) : ∀ acc : Nat × Nat × Nat,
    alarms.foldl sevStep acc =
      (acc.1 + (alarms.filter (fun a => toTmpl (effSeverity a) == "HIGH")).length,
       acc.2.1 + (alarms.filter (fun a => toTmpl (effSeverity a) == "MEDIUM")).length,
       acc.2.2 + (alarms.filter (fun a => toTmpl (effSeverity a) == "LOW")).length) := by
  induction alarms with
  | nil => intro acc; simp
  | cons a rest ih =>
    intro acc
    rw [List.foldl_cons, ih]
    by_cases h1 : toTmpl (effSeverity a) = "HIGH"
    · simp [sevStep, List.filter_cons, beq_iff_eq, h1]
      omega
    · by_cases h2 : toTmpl (effSeverity a) = "MEDIUM"
      · simp [sevStep, List.filter_cons, beq_iff_eq, h1, h2]
        omega
      · by_cases h3 : toTmpl (effSeverity a) = "LOW"
        · simp [sevStep, List.filter_cons, beq_iff_eq, h1, h2, h3]
          omega
        · simp [sevStep, List.filter_cons, beq_iff_eq, h1, h2, h3]

theorem severityFold_eq_filters (alarms : List JSVal) :
    severityFold alarms =
      ((alarms.filter (fun a => toTmpl (effSeverity a) == "HIGH")).length,
       (alarms.filter (fun a => toTmpl (effSeverity a) == "MEDIUM")).length,
       (alarms.filter (fun a => toTmpl (effSeverity a) == "LOW")).length) := by
  rw [severityFold, severityFold_go]
  simp

theorem string_append_assoc (a b c : String) : (a ++ b) ++ c = a ++ (b ++ c) :=
  string_eq_of_data (by simp [String.data_append])

theorem containsSub_of_shape (p pre suf s : String) (h : s = pre ++ p ++ suf) :
    containsSub p s = true := by
  subst h
  rw [containsSub]
  simp only [String.data_append, List.append_assoc]
  exact containsSubL_middle p.data pre.data suf.data


/-- Claim C6 (confirmed): whenever the alarms payload carries a nonempty
`results` array, the report rendered by `formatListAlarms` contains the
severity-breakdown line whose three counts are exactly the fold of the
per-alarm severity over the whole list; those fold counts equal the number
of alarms whose effective severity is HIGH / MEDIUM / LOW respectively; and
for an alarm lacking an explicit `severity` field with a numeric `type`,
the effective severity is derived as HIGH when type <= 2, MEDIUM when
type <= 5, and LOW otherwise. -/
theorem formatListAlarms_severity_breakdown
    (now : String) (fmtDate : JSVal → String) (data metadata : JSVal)
    (alarms : List JSVal)
    (hres : getF data "results" = JSVal.arr alarms) (hne : alarms ≠ []) :
    containsSub
      ("- **Severity Breakdown**: High (" ++ natToStr (severityFold alarms).1 ++
        "), Medium (" ++ natToStr (severityFold alarms).2.1 ++
        "), Low (" ++ natToStr (severityFold alarms).2.2 ++ ")\n")
      (formatListAlarms now fmtDate data metadata) = true ∧
    severityFold alarms =
      ((alarms.filter (fun a => toTmpl (effSeverity a) == "HIGH")).length,
       (alarms.filter (fun a => toTmpl (effSeverity a) == "MEDIUM")).length,
       (alarms.filter (fun a => toTmpl (effSeverity a) == "LOW")).length) ∧
    (∀ a : JSVal, ∀ t : Int, getF a "severity" = JSVal.undef →
      getF a "type" = JSVal.num t →
      toTmpl (effSeverity a) =
        (if t ≤ 2 then "HIGH" else if t ≤ 5 then "MEDIUM" else "LOW")) := by
  refine ⟨?_, severityFold_eq_filters alarms, ?_⟩
  · have hAV : jsOr (getF data "results") (JSVal.arr []) = JSVal.arr alarms := by
      rw [hres]
      rfl
    have hG : jsGT0 (getF (JSVal.arr alarms) "length") = true := by
      simp [getF, jsGT0]
      exact_mod_cast List.length_pos.mpr hne
    have heq : formatListAlarms now fmtDate data metadata =
      ("# Firewalla Security Alarms Report\n" ++ "*Generated: " ++ now ++ "*\n\n" ++
        "## üìä Overview\n" ++
        "- **Total Alarms**: " ++ toTmpl (getF (JSVal.arr alarms) "length") ++ "\n" ++
        "- **Query**: " ++ toTmpl (jsOr (getF metadata "query") (JSVal.str "All alarms")) ++ "\n") ++
      ("- **Severity Breakdown**: High (" ++ natToStr (severityFold alarms).1 ++
        "), Medium (" ++ natToStr (severityFold alarms).2.1 ++
        "), Low (" ++ natToStr (severityFold alarms).2.2 ++ ")\n") ++
      (("- **Status**: Active (" ++ natToStr (statusFold alarms).1 ++ "), Acknowledged (" ++
          natToStr (statusFold alarms).2.1 ++ "), Resolved (" ++
          natToStr (statusFold alarms).2.2 ++ ")\n\n" ++
        "## üö® Alarms by Type\n" ++
        String.join ((alarms.foldl (fun acc a => bumpCount (alarmTypeKey a) acc) []).map
          (fun p => "- **" ++ p.1 ++ "**: " ++ natToStr p.2 ++ " alarms\n")) ++ "\n" ++
        "## üìã Detailed Alarms\n\n" ++
        alarmDetails fmtDate alarms 0) ++
       (if truthy (getF data "next_cursor") then
          "\n## üìÑ Additional Results\n" ++
          "More results are available. Use cursor: `" ++
            toTmpl (getF data "next_cursor") ++ "` to fetch the next page.\n"
        else "")) := by
      simp only [formatListAlarms, hAV, hG, eq_self_iff_true, if_true, jsElems]
      apply string_eq_of_data
      simp only [String.data_append, List.append_assoc]
    exact containsSub_of_shape _ _ _ _ heq
  · intro a t hsev htype
    simp [effSeverity, hsev, jsOr, truthy, derivedSeverity, htype, jsLE, toTmpl]

theorem formatListAlarms_severity_breakdown_witness :
    getF (JSVal.obj [("results", JSVal.arr [JSVal.obj [("type", JSVal.num 9)],
        JSVal.obj [("type", JSVal.num 10)]])]) "results" =
      JSVal.arr [JSVal.obj [("type", JSVal.num 9)], JSVal.obj [("type", JSVal.num 10)]] ∧
    [JSVal.obj [("type", JSVal.num 9)], JSVal.obj [("type", JSVal.num 10)]] ≠
      ([] : List JSVal) ∧
    (containsSub
      ("- **Severity Breakdown**: High (" ++
        natToStr (severityFold [JSVal.obj [("type", JSVal.num 9)],
          JSVal.obj [("type", JSVal.num 10)]]).1 ++
        "), Medium (" ++ natToStr (severityFold [JSVal.obj [("type", JSVal.num 9)],
          JSVal.obj [("type", JSVal.num 10)]]).2.1 ++
        "), Low (" ++ natToStr (severityFold [JSVal.obj [("type", JSVal.num 9)],
          JSVal.obj [("type", JSVal.num 10)]]).2.2 ++ ")\n")
      (formatListAlarms nowSample fmtDateSample
        (JSVal.obj [("results", JSVal.arr [JSVal.obj [("type", JSVal.num 9)],
          JSVal.obj [("type", JSVal.num 10)]])]) (JSVal.obj [])) = true ∧
    severityFold [JSVal.obj [("type", JSVal.num 9)], JSVal.obj [("type", JSVal.num 10)]] =
      (([JSVal.obj [("type", JSVal.num 9)], JSVal.obj [("type", JSVal.num 10)]].filter
          (fun a => toTmpl (effSeverity a) == "HIGH")).length,
       ([JSVal.obj [("type", JSVal.num 9)], JSVal.obj [("type", JSVal.num 10)]].filter
          (fun a => toTmpl (effSeverity a) == "MEDIUM")).length,
       ([JSVal.obj [("type", JSVal.num 9)], JSVal.obj [("type", JSVal.num 10)]].filter
          (fun a => toTmpl (effSeverity a) == "LOW")).length) ∧
    (∀ a : JSVal, ∀ t : Int, getF a "severity" = JSVal.undef →
      getF a "type" = JSVal.num t →
      toTmpl (effSeverity a) =
        (if t ≤ 2 then "HIGH" else if t ≤ 5 then "MEDIUM" else "LOW"))) :=
  ⟨rfl, List.cons_ne_nil _ _,
    formatListAlarms_severity_breakdown nowSample fmtDateSample
      (JSVal.obj [("results", JSVal.arr [JSVal.obj [("type", JSVal.num 9)],
        JSVal.obj [("type", JSVal.num 10)]])]) (JSVal.obj [])
      [JSVal.obj [("type", JSVal.num 9)], JSVal.obj [("type", JSVal.num 10)]]
      rfl (List.cons_ne_nil _ _)⟩

/-! ## The list_rules display-name synthesis

Both server versions patch each rule before rendering (v1.0.0 lines
754-778, v1.2.0 lines 2874-2900):
`if (!rule.name) { const action = rule.action || 'unknown'; const
direction = rule.direction || ''; const target = rule.target?.value ||
'any'; const protocol = rule.protocol || 'any';
rule.name = `(template) action direction protocol target`.trim(); }`. -/

def metadataXML : Option (List (String × JSVal)) → String
  | none => ""
  | some pairs => joinSep "\n" (pairs.map (fun p =>
      "    <" ++ escapeXML p.1 ++ ">" ++ escapeXML (toTmpl p.2) ++
      "</" ++ escapeXML p.1 ++ ">"))

def envelopeHead (timestamp responseType : String)
    (metadata : Option (List (String × JSVal))) : String :=
  "<firewalla_response>\n  <metadata>\n    <response_type>" ++
  escapeXML responseType ++ "</response_type>\n    <timestamp>" ++
  timestamp ++ "</timestamp>\n" ++ metadataXML metadata ++
  "\n  </metadata>\n"

def envelopeTail (data : JSVal) : String :=
  "  <data>\n" ++ jsonToXML data 2 ++ "\n  </data>\n</firewalla_response>"

def formatAsXML (timestamp : String) (data : JSVal) (responseType : String)
    (metadata : Option (List (String × JSVal))) : String :=
  envelopeHead timestamp responseType metadata ++ envelopeTail data

def envelopeXML (timestamp responseType : String)
    (metadata : Option (List (String × JSVal)))
    (title summary presentationContent : String) (data : JSVal) : String :=
  envelopeHead timestamp responseType metadata ++
  "  <presentation>\n    <artifact_content type=\"markdown\" title=\"" ++
  escapeXML title ++ "\">\n" ++ escapeXML presentationContent ++
  "\n    </artifact_content>\n  </presentation>\n" ++
  "  <summary>" ++ escapeXML summary ++ "</summary>\n" ++
  envelopeTail data

/-- Spec-side reading of the envelope (the second definition of the
refinement): metadata, then an optional presentation block, then an
optional summary, then the serialized data. -/
def specPresentationXML : Option (String × String) → String
  | none => ""
  | some tc =>
    "  <presentation>\n    <artifact_content type=\"markdown\" title=\"" ++
    escapeXML tc.1 ++ "\">\n" ++ escapeXML tc.2 ++
    "\n    </artifact_content>\n  </presentation>\n"

def specSummaryXML : Option String → String
  | none => ""
  | some s => "  <summary>" ++ escapeXML s ++ "</summary>\n"

def specEnvelope (timestamp responseType : String)
    (metadata : Option (List (String × JSVal)))
    (pres : Option (String × String)) (summ : Option String)
    (data : JSVal) : String :=
  envelopeHead timestamp responseType metadata ++
  specPresentationXML pres ++ specSummaryXML summ ++ envelopeTail data

theorem data_empty_str : ("" : String).data = [] := rfl

/-- The baseline envelope contains no summary and no presentation element:
on a concrete `get_alarm`-style call the output of `formatAsXML` never
mentions `<summary>`, refuting the claim that every returned envelope
carries a summary child. -/
theorem formatAsXML_no_summary :
    containsSub "<summary>" (formatAsXML "2026-01-01T00:00:00.000Z" JSVal.null
      "get_alarm" (some [("gid", JSVal.str "1"), ("aid", JSVal.str "2")])) = false ∧
    containsSub "<presentation>" (formatAsXML "2026-01-01T00:00:00.000Z" JSVal.null
      "get_alarm" (some [("gid", JSVal.str "1"), ("aid", JSVal.str "2")])) = false := by
  have hlit : formatAsXML "2026-01-01T00:00:00.000Z" JSVal.null
      "get_alarm" (some [("gid", JSVal.str "1"), ("aid", JSVal.str "2")]) =
      "<firewalla_response>\n  <metadata>\n    <response_type>get_alarm</response_type>\n    <timestamp>2026-01-01T00:00:00.000Z</timestamp>\n    <gid>1</gid>\n    <aid>2</aid>\n  </metadata>\n  <data>\n  <value>null</value>\n  </data>\n</firewalla_response>" := by
    simp [formatAsXML, envelopeHead, envelopeTail, metadataXML, joinSep,
      escapeXML, toTmpl, jsonToXML]
    rfl
  exact ⟨by rw [hlit]; decide, by rw [hlit]; decide⟩

/-- Claim C9 (corrected): both envelope builders refine the documented
child order — root `firewalla_response` holding `metadata` (response_type,
then timestamp, then the caller-supplied escaped key/value pairs), an
optional `presentation` block with one `artifact_content` element carrying
`type` and `title` attributes around the escaped Markdown text, an optional
escaped `summary`, and `data` holding the recursive serialization.  The
enhanced envelope always carries presentation and summary; the baseline
`formatAsXML` envelope carries neither, so a summary child is optional in
reality rather than mandatory. -/
theorem envelope_structure
    (timestamp responseType title summary presentationContent : String)
    (metadata : Option (List (String × JSVal))) (data : JSVal) :
    envelopeXML timestamp responseType metadata title summary
        presentationContent data =
      specEnvelope timestamp responseType metadata
        (some (title, presentationContent)) (some summary) data ∧
    formatAsXML timestamp data responseType metadata =
      specEnvelope timestamp responseType metadata none none data := by
  constructor
  · apply string_eq_of_data
    simp only [envelopeXML, specEnvelope, specPresentationXML, specSummaryXML,
      String.data_append, List.append_assoc]
  · apply string_eq_of_data
    simp only [formatAsXML, specEnvelope, specPresentationXML, specSummaryXML,
      data_empty_str, List.nil_append, String.data_append, List.append_assoc]

/-! ## The tool-call error mapping

Both versions share the same catch block (v1.0.0 lines 1029-1049, v1.2.0
lines 3204-3224): an axios failure is mapped by status, anything else —
notably an already-constructed McpError — is rethrown unchanged. -/

inductive ErrorCode
  | invalidRequest
  | methodNotFound
  | internalError
deriving DecidableEq

structure McpError where
  code : ErrorCode
  message : String
deriving DecidableEq

/-- An axios failure as the catch block reads it: `error.response?.status`
(absent for a network failure), the chain `error.response?.data?.message`
as a JS value, and the error's own `message` string. -/
structure AxiosError where
  status : Option Nat
  dataMessage : JSVal
  errMessage : String

/-- `error.response?.data?.message || error.message` interpolated into a
template literal. -/
def resolveMsg (e : AxiosError) : String :=
  if truthy e.dataMessage then toTmpl e.dataMessage else e.errMessage

def mapAxiosError (e : AxiosError) : McpError :=
  let message := resolveMsg e
  if e.status = some 401 then
    ⟨.invalidRequest, "Authentication failed. Check your API key."⟩
  else if e.status = some 404 then
    ⟨.invalidRequest, "Resource not found."⟩
  else if e.status = some 400 then
    ⟨.invalidRequest, "Bad request: " ++ message⟩
  else
    ⟨.internalError, "API request failed: " ++ message⟩

inductive CaughtError
  | axios (e : AxiosError)
  | mcp (e : McpError)

/-- What the catch block rethrows: axios failures are mapped, every other
McpError passes through unchanged. -/
def catchHandler : CaughtError → McpError
  | .axios e => mapAxiosError e
  | .mcp e => e

/-- Claim C2 (confirmed): the surfaced error matches the documented mapping
exactly — 401 gives the invalid-request authentication error, 404 the
invalid-request missing-resource error, 400 an invalid-request error
carrying the upstream message verbatim, and any other status or a network
failure the generic internal error carrying the upstream message; an
McpError thrown before the HTTP layer passes through unchanged. -/
theorem mapAxiosError_spec (r : Option Nat) (dm : JSVal) (em : String) :
    catchHandler (.axios ⟨some 401, dm, em⟩) =
      ⟨.invalidRequest, "Authentication failed. Check your API key."⟩ ∧
    catchHandler (.axios ⟨some 404, dm, em⟩) =
      ⟨.invalidRequest, "Resource not found."⟩ ∧
    catchHandler (.axios ⟨some 400, dm, em⟩) =
      ⟨.invalidRequest, "Bad request: " ++ resolveMsg ⟨some 400, dm, em⟩⟩ ∧
    (r ≠ some 401 → r ≠ some 404 → r ≠ some 400 →
      catchHandler (.axios ⟨r, dm, em⟩) =
        ⟨.internalError, "API request failed: " ++ resolveMsg ⟨r, dm, em⟩⟩) ∧
    (∀ m : McpError, catchHandler (.mcp m) = m) := by
  refine ⟨?_, ?_, ?_, ?_, fun m => rfl⟩
  · simp [catchHandler, mapAxiosError]
  · simp [catchHandler, mapAxiosError]
  · simp [catchHandler, mapAxiosError]
  · intro h1 h2 h3
    simp [catchHandler, mapAxiosError, h1, h2, h3]

theorem mapAxiosError_spec_witness :
    catchHandler (.axios ⟨some 500, JSVal.undef, "socket hang up"⟩) =
      ⟨.internalError,
        "API request failed: " ++ resolveMsg ⟨some 500, JSVal.undef, "socket hang up"⟩⟩ :=
  (mapAxiosError_spec (some 500) JSVal.undef "socket hang up").2.2.2.1
    (by decide) (by decide) (by decide)

/-! ## Tool dispatch

Each version declares its tools in the ListTools handler and dispatches
calls with a `switch (name)` whose default throws
`McpError(MethodNotFound, `(template) Unknown tool: name`)` before any HTTP
request is made (v1.0.0 lines 1023-1028, v1.2.0 lines 3198-3203).  A
dispatch result pairs the list of outbound HTTP requests issued with the
outcome. -/

def toolNames_v100 : List String :=
  ["list_boxes", "list_devices", "list_alarms", "get_alarm", "delete_alarm",
   "list_rules", "pause_rule", "resume_rule", "create_rule", "update_rule",
   "delete_rule", "list_flows", "list_target_lists", "get_target_list",
   "create_target_list", "update_target_list", "delete_target_list",
   "get_statistics", "get_simple_statistics", "get_trends", "search_global",
   "search_devices", "search_alarms", "search_flows"]

def toolNames_v120 : List String :=
  ["list_boxes", "list_devices", "list_alarms", "get_alarm", "delete_alarm",
   "list_rules", "pause_rule", "resume_rule", "create_rule", "update_rule",
   "delete_rule", "list_flows", "list_target_lists", "get_target_list",
   "create_target_list", "update_target_list", "delete_target_list",
   "get_statistics", "get_simple_statistics", "get_trends", "search_global",
   "search_devices", "search_alarms", "search_flows"]

def switchCases_v100 : List String :=
  ["list_boxes", "list_devices", "list_alarms", "get_alarm", "delete_alarm",
   "list_rules", "pause_rule", "resume_rule", "create_rule", "update_rule",
   "delete_rule", "list_flows", "list_target_lists", "get_target_list",
   "create_target_list", "update_target_list", "delete_target_list",
   "get_statistics", "get_simple_statistics", "get_trends", "search_global",
   "search_devices", "search_alarms", "search_flows"]

def switchCases_v120 : List String :=
  ["list_boxes", "list_devices", "list_alarms", "get_alarm", "delete_alarm",
   "list_rules", "pause_rule", "resume_rule", "create_rule", "update_rule",
   "delete_rule", "list_flows", "list_target_lists", "get_target_list",
   "create_target_list", "update_target_list", "delete_target_list",
   "get_statistics", "get_simple_statistics", "get_trends", "search_global",
   "search_devices", "search_alarms", "search_flows"]

def callToolDispatch_v100
    (branches : String → List String × Except McpError String)
    (name : String) : List String × Except McpError String :=
  if name ∈ switchCases_v100 then branches name
  else ([], .error ⟨.methodNotFound, "Unknown tool: " ++ name⟩)

def callToolDispatch_v120
    (branches : String → List String × Except McpError String)
    (name : String) : List String × Except McpError String :=
  if name ∈ switchCases_v120 then branches name
  else ([], .error ⟨.methodNotFound, "Unknown tool: " ++ name⟩)

/-- Claim C10 (confirmed): in both versions the case labels coincide with
the declared tool set, so any name outside it reaches the default, which
issues no HTTP request (empty trace) and throws the protocol
MethodNotFound error naming the unknown tool. -/
theorem unknown_tool_method_not_found
    (branches100 branches120 : String → List String × Except McpError String)
    (name : String)
    (h120 : name ∉ toolNames_v120) (h100 : name ∉ toolNames_v100) :
    callToolDispatch_v120 branches120 name =
      ([], .error ⟨.methodNotFound, "Unknown tool: " ++ name⟩) ∧
    callToolDispatch_v100 branches100 name =
      ([], .error ⟨.methodNotFound, "Unknown tool: " ++ name⟩) ∧
    switchCases_v120 = toolNames_v120 ∧ switchCases_v100 = toolNames_v100 := by
  refine ⟨?_, ?_, rfl, rfl⟩
  · have e : switchCases_v120 = toolNames_v120 := rfl
    simp [callToolDispatch_v120, e, h120]
  · have e : switchCases_v100 = toolNames_v100 := rfl
    simp [callToolDispatch_v100, e, h100]

theorem unknown_tool_method_not_found_witness :
    "frobnicate" ∉ toolNames_v120 ∧ "frobnicate" ∉ toolNames_v100 ∧
    (callToolDispatch_v120 (fun _ => ([], .ok "")) "frobnicate" =
       ([], .error ⟨.methodNotFound, "Unknown tool: " ++ "frobnicate"⟩) ∧
     callToolDispatch_v100 (fun _ => ([], .ok "")) "frobnicate" =
       ([], .error ⟨.methodNotFound, "Unknown tool: " ++ "frobnicate"⟩) ∧
     switchCases_v120 = toolNames_v120 ∧ switchCases_v100 = toolNames_v100) :=
  ⟨by decide, by decide,
    unknown_tool_method_not_found (fun _ => ([], .ok "")) (fun _ => ([], .ok ""))
      "frobnicate" (by decide) (by decide)⟩

/-! ## The search_global fan-out

Both versions loop over the requested entity types, skip unknown types
(`default: continue`), issue one HTTP request per known type, and isolate
failures per type (v1.0.0 lines 922-988, v1.2.0 lines 3083-3141).  The
state is the insertion-ordered results map together with the running total
count (`none` models NaN: adding a non-number poisons the total).  The
`fetch` oracle maps an endpoint to `response.data`, `none` meaning the
request threw. -/

def entityEndpoint : String → Option String
  | "devices" => some "/devices"
  | "alarms" => some "/alarms"
  | "flows" => some "/flows"
  | "boxes" => some "/boxes"
  | _ => none

def setField : List (String × JSVal) → String → JSVal → List (String × JSVal)
  | [], k, v => [(k, v)]
  | (k2, v2) :: rest, k, v =>
    if k2 = k then (k2, v) :: rest else (k2, v2) :: setField rest k v

def jsAddNum : Option Int → JSVal → Option Int
  | some a, .num n => some (a + n)
  | _, _ => none

def optCase {α β : Type} (dflt : β) (o : Option α) (k : α → β) : β :=
  match o with
  | none => dflt
  | some a => k a

def arrElse_v120 (st : List (String × JSVal) × Option Int)
    (entityType : String) : JSVal → List (String × JSVal) × Option Int
  | .arr xs =>
    (setField st.1 entityType (.arr xs), jsAddNum st.2 (.num (xs.length : Int)))
  | data =>
    (setField st.1 entityType (.arr [data]), jsAddNum st.2 (.num 1))

def searchStep_v120 (fetch : String → Option JSVal)
    (st : List (String × JSVal) × Option Int) (entityType : String) :
    List (String × JSVal) × Option Int :=
  optCase st (entityEndpoint entityType) (fun ep =>
    optCase (setField st.1 entityType (.arr []), st.2) (fetch ep) (fun data =>
      if truthy (getF data "results") then
        (setField st.1 entityType (getF data "results"),
         jsAddNum st.2 (getF (getF data "results") "length"))
      else arrElse_v120 st entityType data))

def searchGlobal_v120 (fetch : String → Option JSVal)
    (searchTypes : List String) : List (String × JSVal) × Option Int :=
  searchTypes.foldl (searchStep_v120 fetch) ([], some 0)

def arrElse_v100 (st : List (String × JSVal) × Option Int)
    (entityType : String) : JSVal → List (String × JSVal) × Option Int
  | .arr xs =>
    (setField st.1 entityType (.obj [("results", .arr xs),
      ("count", .num (xs.length : Int))]),
     jsAddNum st.2 (.num (xs.length : Int)))
  | data =>
    (setField st.1 entityType (.obj [("results", .arr [data]), ("count", .num 1)]),
     jsAddNum st.2 (.num 1))

def searchStep_v100 (fetch : String → Option JSVal)
    (st : List (String × JSVal) × Option Int) (entityType : String) :
    List (String × JSVal) × Option Int :=
  optCase st (entityEndpoint entityType) (fun ep =>
    optCase (setField st.1 entityType
        (.obj [("error", .str ("Failed to search " ++ entityType))]), st.2)
      (fetch ep) (fun data =>
        if truthy (getF data "results") then
          (setField st.1 entityType (.obj [("results", getF data "results"),
            ("count", jsOr (getF data "count") (getF (getF data "results") "length")),
            ("next_cursor", getF data "next_cursor")]),
           jsAddNum st.2 (jsOr (getF data "count") (getF (getF data "results") "length")))
        else arrElse_v100 st entityType data))

def searchGlobal_v100 (fetch : String → Option JSVal)
    (searchTypes : List String) : List (String × JSVal) × Option Int :=
  searchTypes.foldl (searchStep_v100 fetch) ([], some 0)

/-- When the alarms sub-request fails in v1.2.0 the slot stored for
`alarms` is the bare empty array — indistinguishable from an empty
success and carrying no inline error marker — while v1.0.0 stores the
documented `\x7berror: 'Failed to search alarms'\x7d` object. -/
theorem searchGlobal_v120_failed_slot_no_marker :
    (searchGlobal_v120
      (fun ep => if ep = "/devices"
        then some (JSVal.obj [("results",
          JSVal.arr [JSVal.obj [("name", JSVal.str "laptop")]])])
        else none)
      ["devices", "alarms"]).1 =
      [("devices", JSVal.arr [JSVal.obj [("name", JSVal.str "laptop")]]),
       ("alarms", JSVal.arr [])] ∧
    lookupField (searchGlobal_v100
      (fun ep => if ep = "/devices"
        then some (JSVal.obj [("results",
          JSVal.arr [JSVal.obj [("name", JSVal.str "laptop")]])])
        else none)
      ["devices", "alarms"]).1 "alarms" =
      some (JSVal.obj [("error", JSVal.str "Failed to search alarms")]) :=
  ⟨rfl, rfl⟩

/-- The slot value the loop body stores for one successfully fetched
`data` in v1.2.0: `data.results` when truthy, `data` itself when it is an
array, `[data]` otherwise. -/
def arrWrap : JSVal → JSVal
  | .arr xs => .arr xs
  | data => .arr [data]

def arrLenVal : JSVal → JSVal
  | .arr xs => .num (xs.length : Int)
  | _ => .num 1

def slotData_v120 (data : JSVal) : JSVal :=
  if truthy (getF data "results") then getF data "results" else arrWrap data

def cntData_v120 (data : JSVal) : JSVal :=
  if truthy (getF data "results") then getF (getF data "results") "length"
  else arrLenVal data

def slotData_v100 (data : JSVal) : JSVal :=
  if truthy (getF data "results") then
    .obj [("results", getF data "results"),
      ("count", jsOr (getF data "count") (getF (getF data "results") "length")),
      ("next_cursor", getF data "next_cursor")]
  else .obj [("results", arrWrap data), ("count", arrLenVal data)]

def cntData_v100 (data : JSVal) : JSVal :=
  if truthy (getF data "results") then
    jsOr (getF data "count") (getF (getF data "results") "length")
  else arrLenVal data

/-- The per-type outcome of one loop iteration: the slot written for the
type (`none` when the type is unknown and `continue` skips it) and the
value added to the running total (`none` also when the sub-request
failed: a failure contributes nothing). -/
def slotOf_v120 (fetch : String → Option JSVal) (t : String) : Option JSVal :=
  optCase none (entityEndpoint t) (fun ep =>
    optCase (some (.arr [])) (fetch ep) (fun data => some (slotData_v120 data)))

def countOf_v120 (fetch : String → Option JSVal) (t : String) : Option JSVal :=
  optCase none (entityEndpoint t) (fun ep =>
    optCase none (fetch ep) (fun data => some (cntData_v120 data)))

def slotOf_v100 (fetch : String → Option JSVal) (t : String) : Option JSVal :=
  optCase none (entityEndpoint t) (fun ep =>
    optCase (some (.obj [("error", .str ("Failed to search " ++ t))])) (fetch ep)
      (fun data => some (slotData_v100 data)))

def countOf_v100 (fetch : String → Option JSVal) (t : String) : Option JSVal :=
  optCase none (entityEndpoint t) (fun ep =>
    optCase none (fetch ep) (fun data => some (cntData_v100 data)))

theorem arrElse_v120_eq (st : List (String × JSVal) × Option Int)
    (t : String) (data : JSVal) :
    arrElse_v120 st t data =
      (setField st.1 t (arrWrap data), jsAddNum st.2 (arrLenVal data)) := by
  cases data <;> rfl

theorem arrElse_v100_eq (st : List (String × JSVal) × Option Int)
    (t : String) (data : JSVal) :
    arrElse_v100 st t data =
      (setField st.1 t (.obj [("results", arrWrap data), ("count", arrLenVal data)]),
       jsAddNum st.2 (arrLenVal data)) := by
  cases data <;> rfl

theorem searchStep_v120_eq (fetch : String → Option JSVal)
    (st : List (String × JSVal) × Option Int) (t : String) :
    searchStep_v120 fetch st t =
      (optCase st.1 (slotOf_v120 fetch t) (setField st.1 t),
       optCase st.2 (countOf_v120 fetch t) (jsAddNum st.2)) := by
  cases he : entityEndpoint t with
  | none => simp [searchStep_v120, slotOf_v120, countOf_v120, optCase, he]
  | some ep =>
    cases hf : fetch ep with
    | none => simp [searchStep_v120, slotOf_v120, countOf_v120, optCase, he, hf]
    | some data =>
      by_cases hr : truthy (getF data "results")
      · simp [searchStep_v120, slotOf_v120, countOf_v120, optCase, he, hf,
          slotData_v120, cntData_v120, hr]
      · simp [searchStep_v120, slotOf_v120, countOf_v120, optCase, he, hf,
          slotData_v120, cntData_v120, hr, arrElse_v120_eq]

theorem searchStep_v100_eq (fetch : String → Option JSVal)
    (st : List (String × JSVal) × Option Int) (t : String) :
    searchStep_v100 fetch st t =
      (optCase st.1 (slotOf_v100 fetch t) (setField st.1 t),
       optCase st.2 (countOf_v100 fetch t) (jsAddNum st.2)) := by
  cases he : entityEndpoint t with
  | none => simp [searchStep_v100, slotOf_v100, countOf_v100, optCase, he]
  | some ep =>
    cases hf : fetch ep with
    | none => simp [searchStep_v100, slotOf_v100, countOf_v100, optCase, he, hf]
    | some data =>
      by_cases hr : truthy (getF data "results")
      · simp [searchStep_v100, slotOf_v100, countOf_v100, optCase, he, hf,
          slotData_v100, cntData_v100, hr]
      · simp [searchStep_v100, slotOf_v100, countOf_v100, optCase, he, hf,
          slotData_v100, cntData_v100, hr, arrElse_v100_eq]

theorem lookupField_setField_self (m : List (String × JSVal)) (k : String)
    (v : JSVal) : lookupField (setField m k v) k = some v := by
  induction m with
  | nil => simp [setField, lookupField]
  | cons p rest ih =>
    obtain ⟨k2, v2⟩ := p
    by_cases h : k2 = k
    · simp [setField, lookupField, h]
    · simp [setField, lookupField, h, ih]

theorem lookupField_setField_other (m : List (String × JSVal)) (k t : String)
    (v : JSVal) (h : k ≠ t) :
    lookupField (setField m k v) t = lookupField m t := by
  induction m with
  | nil => simp [setField, lookupField, h]
  | cons p rest ih =>
    obtain ⟨k2, v2⟩ := p
    by_cases h2 : k2 = k
    · subst h2
      simp [setField, lookupField, h]
    · have h4 : t ≠ k := fun he => h he.symm
      by_cases h3 : k2 = t
      · simp [setField, lookupField, h2, h3, h4]
      · simp [setField, lookupField, h2, h3, h4, ih]

theorem searchFold_preserve
    (step : List (String × JSVal) × Option Int → String →
      List (String × JSVal) × Option Int)
    (slotOf countOf : String → Option JSVal)
    (hstep : ∀ st t, step st t =
      (optCase st.1 (slotOf t) (setField st.1 t),
       optCase st.2 (countOf t) (jsAddNum st.2)))
    (ts : List String) (t : String) :
    t ∉ ts → ∀ st, lookupField (ts.foldl step st).1 t = lookupField st.1 t := by
  induction ts with
  | nil => intro _ st; rfl
  | cons a rest ih =>
    intro ht st
    rw [List.foldl_cons, ih (fun h => ht (List.mem_cons_of_mem a h)) (step st a)]
    rw [hstep]
    have hat : a ≠ t := fun he => ht (List.mem_cons.mpr (Or.inl he.symm))
    cases hs : slotOf a with
    | none => simp [optCase]
    | some v =>
      simpa [optCase] using lookupField_setField_other st.1 a t v hat

theorem searchFold_lookup
    (step : List (String × JSVal) × Option Int → String →
      List (String × JSVal) × Option Int)
    (slotOf countOf : String → Option JSVal)
    (hstep : ∀ st t, step st t =
      (optCase st.1 (slotOf t) (setField st.1 t),
       optCase st.2 (countOf t) (jsAddNum st.2)))
    (ts : List String) :
    ∀ t v, slotOf t = some v → t ∈ ts →
      ∀ st, lookupField (ts.foldl step st).1 t = some v := by
  induction ts with
  | nil => intro t v _ ht; cases ht
  | cons a rest ih =>
    intro t v hv ht st
    rw [List.foldl_cons]
    by_cases hmem : t ∈ rest
    · exact ih t v hv hmem (step st a)
    · have hta : t = a := (List.mem_cons.mp ht).resolve_right hmem
      subst hta
      rw [searchFold_preserve step slotOf countOf hstep rest t hmem (step st t)]
      rw [hstep, hv]
      simp [optCase, lookupField_setField_self]

theorem searchFold_count
    (step : List (String × JSVal) × Option Int → String →
      List (String × JSVal) × Option Int)
    (slotOf countOf : String → Option JSVal)
    (hstep : ∀ st t, step st t =
      (optCase st.1 (slotOf t) (setField st.1 t),
       optCase st.2 (countOf t) (jsAddNum st.2)))
    (ts : List String) :
    ∀ st, (ts.foldl step st).2 = (ts.filterMap countOf).foldl jsAddNum st.2 := by
  induction ts with
  | nil => intro st; rfl
  | cons a rest ih =>
    intro st
    rw [List.foldl_cons, ih (step st a), hstep]
    cases hc : countOf a with
    | none => simp [List.filterMap_cons, optCase, hc]
    | some w => simp [List.filterMap_cons, optCase, hc]

/-- Claim C1 (corrected): for every fetch oracle and every requested list
of entity types, each requested known type receives an entry in the
results map of both versions no matter where in the request order a
failure occurs (a failure never aborts the remaining sub-requests) — a
failed type's slot is the v1.0.0 inline error object but a bare empty
array in v1.2.0, a successful type's slot is the per-version slot value
built from its own response — and the reported total is the fold of
exactly the successful types' count contributions, so failed types add
nothing to it. -/
theorem searchGlobal_partial_failure
    (fetch : String → Option JSVal) (searchTypes : List String) :
    (∀ t ∈ searchTypes, ∀ ep, entityEndpoint t = some ep → fetch ep = none →
      lookupField (searchGlobal_v120 fetch searchTypes).1 t =
        some (JSVal.arr []) ∧
      lookupField (searchGlobal_v100 fetch searchTypes).1 t =
        some (JSVal.obj [("error", JSVal.str ("Failed to search " ++ t))])) ∧
    (∀ t ∈ searchTypes, ∀ ep data, entityEndpoint t = some ep →
      fetch ep = some data →
      lookupField (searchGlobal_v120 fetch searchTypes).1 t =
        some (slotData_v120 data) ∧
      lookupField (searchGlobal_v100 fetch searchTypes).1 t =
        some (slotData_v100 data)) ∧
    (searchGlobal_v120 fetch searchTypes).2 =
      (searchTypes.filterMap (countOf_v120 fetch)).foldl jsAddNum (some 0) ∧
    (searchGlobal_v100 fetch searchTypes).2 =
      (searchTypes.filterMap (countOf_v100 fetch)).foldl jsAddNum (some 0) := by
  refine ⟨?_, ?_, ?_, ?_⟩
  · intro t htm ep hep hf
    constructor
    · exact searchFold_lookup (searchStep_v120 fetch) (slotOf_v120 fetch)
        (countOf_v120 fetch) (searchStep_v120_eq fetch) searchTypes t
        (JSVal.arr []) (by simp [slotOf_v120, optCase, hep, hf]) htm ([], some 0)
    · exact searchFold_lookup (searchStep_v100 fetch) (slotOf_v100 fetch)
        (countOf_v100 fetch) (searchStep_v100_eq fetch) searchTypes t
        (JSVal.obj [("error", JSVal.str ("Failed to search " ++ t))])
        (by simp [slotOf_v100, optCase, hep, hf]) htm ([], some 0)
  · intro t htm ep data hep hf
    constructor
    · exact searchFold_lookup (searchStep_v120 fetch) (slotOf_v120 fetch)
        (countOf_v120 fetch) (searchStep_v120_eq fetch) searchTypes t
        (slotData_v120 data) (by simp [slotOf_v120, optCase, hep, hf]) htm
        ([], some 0)
    · exact searchFold_lookup (searchStep_v100 fetch) (slotOf_v100 fetch)
        (countOf_v100 fetch) (searchStep_v100_eq fetch) searchTypes t
        (slotData_v100 data) (by simp [slotOf_v100, optCase, hep, hf]) htm
        ([], some 0)
  · exact searchFold_count (searchStep_v120 fetch) (slotOf_v120 fetch)
      (countOf_v120 fetch) (searchStep_v120_eq fetch) searchTypes ([], some 0)
  · exact searchFold_count (searchStep_v100 fetch) (slotOf_v100 fetch)
      (countOf_v100 fetch) (searchStep_v100_eq fetch) searchTypes ([], some 0)

theorem searchGlobal_partial_failure_witness :
    (lookupField (searchGlobal_v120
        (fun ep => if ep = "/devices"
          then some (JSVal.obj [("results",
            JSVal.arr [JSVal.obj [("name", JSVal.str "laptop")]])])
          else none) ["alarms", "devices"]).1 "alarms" =
      some (JSVal.arr []) ∧
     lookupField (searchGlobal_v100
        (fun ep => if ep = "/devices"
          then some (JSVal.obj [("results",
            JSVal.arr [JSVal.obj [("name", JSVal.str "laptop")]])])
          else none) ["alarms", "devices"]).1 "alarms" =
      some (JSVal.obj [("error", JSVal.str ("Failed to search " ++ "alarms"))])) ∧
    (lookupField (searchGlobal_v120
        (fun ep => if ep = "/devices"
          then some (JSVal.obj [("results",
            JSVal.arr [JSVal.obj [("name", JSVal.str "laptop")]])])
          else none) ["alarms", "devices"]).1 "devices" =
      some (slotData_v120 (JSVal.obj [("results",
        JSVal.arr [JSVal.obj [("name", JSVal.str "laptop")]])])) ∧
     lookupField (searchGlobal_v100
        (fun ep => if ep = "/devices"
          then some (JSVal.obj [("results",
            JSVal.arr [JSVal.obj [("name", JSVal.str "laptop")]])])
          else none) ["alarms", "devices"]).1 "devices" =
      some (slotData_v100 (JSVal.obj [("results",
        JSVal.arr [JSVal.obj [("name", JSVal.str "laptop")]])]))) ∧
    (searchGlobal_v120
        (fun ep => if ep = "/devices"
          then some (JSVal.obj [("results",
            JSVal.arr [JSVal.obj [("name", JSVal.str "laptop")]])])
          else none) ["alarms", "devices"]).2 =
      (["alarms", "devices"].filterMap (countOf_v120
        (fun ep => if ep = "/devices"
          then some (JSVal.obj [("results",
            JSVal.arr [JSVal.obj [("name", JSVal.str "laptop")]])])
          else none))).foldl jsAddNum (some 0) ∧
    (searchGlobal_v100
        (fun ep => if ep = "/devices"
          then some (JSVal.obj [("results",
            JSVal.arr [JSVal.obj [("name", JSVal.str "laptop")]])])
          else none) ["alarms", "devices"]).2 =
      (["alarms", "devices"].filterMap (countOf_v100
        (fun ep => if ep = "/devices"
          then some (JSVal.obj [("results",
            JSVal.arr [JSVal.obj [("name", JSVal.str "laptop")]])])
          else none))).foldl jsAddNum (some 0) :=
  ⟨(searchGlobal_partial_failure
      (fun ep => if ep = "/devices"
        then some (JSVal.obj [("results",
          JSVal.arr [JSVal.obj [("name", JSVal.str "laptop")]])])
        else none) ["alarms", "devices"]).1 "alarms" (by decide) "/alarms" rfl rfl,
   (searchGlobal_partial_failure
      (fun ep => if ep = "/devices"
        then some (JSVal.obj [("results",
          JSVal.arr [JSVal.obj [("name", JSVal.str "laptop")]])])
        else none) ["alarms", "devices"]).2.1 "devices" (by decide) "/devices"
      (JSVal.obj [("results", JSVal.arr [JSVal.obj [("name", JSVal.str "laptop")]])])
      rfl rfl,
   (searchGlobal_partial_failure
      (fun ep => if ep = "/devices"
        then some (JSVal.obj [("results",
          JSVal.arr [JSVal.obj [("name", JSVal.str "laptop")]])])
        else none) ["alarms", "devices"]).2.2.1,
   (searchGlobal_partial_failure
      (fun ep => if ep = "/devices"
        then some (JSVal.obj [("results",
          JSVal.arr [JSVal.obj [("name", JSVal.str "laptop")]])])
        else none) ["alarms", "devices"]).2.2.2⟩
